import Mathlib

/-!
# Verification of the flinch-flql expression core

A shallow embedding, in Lean, of the expression sub-language of the
repository: the lexer (`src/lexer.rs`), the recursive-descent parser and
the evaluator node tree (`src/exp_parser.rs`).  Source bytes are
modelled as `List Nat` (one entry per byte), machine integers (`u16`,
`u32` offsets) as `Nat`, and Rust `f64` as the four-variant model `FNum`
below: an exact rational for the finite case plus `nan` and the two
infinities.  Binary64 rounding is abstracted to exact rational
arithmetic; what the development relies on is the *partial-order and
partial-equality structure* of IEEE-754 comparisons (in particular that
`NaN` is not equal to itself), which `FNum` reproduces faithfully.
-/

/-- An exact rational as an explicit fraction: numerator, positive
denominator.  Fractions are not normalised; equality and order are by
cross-multiplication, so they denote ordinary rationals.  (All
operations reduce by `Int`/`Nat` arithmetic, which keeps the model
computable inside the kernel.) -/
structure Frac where
  num : Int
  den : Nat
  den_pos : 0 < den

instance (n : Nat) : OfNat Frac n := ⟨⟨(n : Int), 1, Nat.one_pos⟩⟩

namespace Frac

/-- Rational equality by cross-multiplication. -/
def eqb (a b : Frac) : Bool := decide (a.num * (b.den : Int) = b.num * (a.den : Int))

/-- Rational strict order by cross-multiplication. -/
def ltb (a b : Frac) : Bool := decide (a.num * (b.den : Int) < b.num * (a.den : Int))

/-- Rational order by cross-multiplication. -/
def leb (a b : Frac) : Bool := decide (a.num * (b.den : Int) ≤ b.num * (a.den : Int))

def isZero (a : Frac) : Bool := decide (a.num = 0)

def isPos (a : Frac) : Bool := decide (0 < a.num)

def neg (a : Frac) : Frac := ⟨-a.num, a.den, a.den_pos⟩

def add (a b : Frac) : Frac :=
  ⟨a.num * (b.den : Int) + b.num * (a.den : Int), a.den * b.den,
    Nat.mul_pos a.den_pos b.den_pos⟩

def mul (a b : Frac) : Frac :=
  ⟨a.num * b.num, a.den * b.den, Nat.mul_pos a.den_pos b.den_pos⟩

/-- Division; only meaningful for a non-zero divisor (`FNum.fdiv` below
routes a zero divisor to the IEEE special cases first). -/
def div (a b : Frac) : Frac :=
  if hb : b.num = 0 then ⟨0, 1, Nat.one_pos⟩
  else if 0 ≤ b.num then
    ⟨a.num * (b.den : Int), a.den * b.num.natAbs,
      Nat.mul_pos a.den_pos (Int.natAbs_pos.mpr hb)⟩
  else
    ⟨-(a.num * (b.den : Int)), a.den * b.num.natAbs,
      Nat.mul_pos a.den_pos (Int.natAbs_pos.mpr hb)⟩

end Frac

/-- Model of Rust `f64` as stored in `Value::Number`.  `finite q` stands
for an ordinary float (abstracted to an exact rational), `nan` for any
NaN bit pattern, `inf`/`neginf` for the infinities.  Signed zero is not
distinguished (both map to a zero fraction, which is how `==`/`<` treat
them anyway); binary64 rounding is abstracted to exact arithmetic. -/
inductive FNum where
  | finite (q : Frac)
  | nan
  | inf
  | neginf

namespace FNum

/-- Rust `f64::eq` (derived `PartialEq` on `Value::Number`): NaN compares
unequal to everything, including itself. -/
def feq : FNum → FNum → Bool
  | .finite a, .finite b => Frac.eqb a b
  | .inf, .inf => true
  | .neginf, .neginf => true
  | _, _ => false

/-- Rust `f64` strict `<`: false whenever either side is NaN. -/
def flt : FNum → FNum → Bool
  | .finite a, .finite b => Frac.ltb a b
  | .finite _, .inf => true
  | .neginf, .finite _ => true
  | .neginf, .inf => true
  | _, _ => false

/-- Rust `f64` `<=`: false whenever either side is NaN. -/
def fle : FNum → FNum → Bool
  | .nan, _ => false
  | _, .nan => false
  | .finite a, .finite b => Frac.leb a b
  | .finite _, .inf => true
  | .finite _, .neginf => false
  | .inf, .inf => true
  | .inf, _ => false
  | .neginf, _ => true

/-- IEEE negation on the model. -/
def fneg : FNum → FNum
  | .finite a => .finite a.neg
  | .nan => .nan
  | .inf => .neginf
  | .neginf => .inf

/-- IEEE addition on the model (`inf + neginf = nan`; NaN propagates). -/
def fadd : FNum → FNum → FNum
  | .nan, _ => .nan
  | _, .nan => .nan
  | .finite a, .finite b => .finite (a.add b)
  | .inf, .neginf => .nan
  | .neginf, .inf => .nan
  | .inf, _ => .inf
  | _, .inf => .inf
  | .neginf, _ => .neginf
  | _, .neginf => .neginf

/-- IEEE subtraction: `a - b = a + (-b)`. -/
def fsub (a b : FNum) : FNum := fadd a (fneg b)

/-- IEEE multiplication on the model (`0 * inf = nan`; NaN propagates). -/
def fmul : FNum → FNum → FNum
  | .nan, _ => .nan
  | _, .nan => .nan
  | .finite a, .finite b => .finite (a.mul b)
  | .finite a, .inf => if a.isZero then .nan else if a.isPos then .inf else .neginf
  | .finite a, .neginf => if a.isZero then .nan else if a.isPos then .neginf else .inf
  | .inf, .finite b => if b.isZero then .nan else if b.isPos then .inf else .neginf
  | .neginf, .finite b => if b.isZero then .nan else if b.isPos then .neginf else .inf
  | .inf, .inf => .inf
  | .inf, .neginf => .neginf
  | .neginf, .inf => .neginf
  | .neginf, .neginf => .inf

/-- IEEE division on the model: `x / 0` is `nan` for `x = 0` and a signed
infinity otherwise (the zero divisor is treated as `+0`); `inf / inf = nan`;
NaN propagates. -/
def fdiv : FNum → FNum → FNum
  | .nan, _ => .nan
  | _, .nan => .nan
  | .finite a, .finite b =>
      if b.isZero then (if a.isZero then .nan else if a.isPos then .inf else .neginf)
      else .finite (a.div b)
  | .finite _, .inf => .finite 0
  | .finite _, .neginf => .finite 0
  | .inf, .finite _ => .inf
  | .neginf, .finite _ => .neginf
  | .inf, _ => .nan
  | .neginf, _ => .nan

end FNum

/-- Strict lexicographic order on byte strings; this is exactly Rust's
`String`/`str` `<` (which compares raw bytes). -/
def bytesLt : List Nat → List Nat → Bool
  | [], [] => false
  | [], _ :: _ => true
  | _ :: _, [] => false
  | a :: as, b :: bs => if a < b then true else if b < a then false else bytesLt as bs

/-- Rust `<=` on strings: lexicographic less-than-or-equal. -/
def bytesLe (a b : List Nat) : Bool := bytesLt a b || decide (a = b)

/-- The `Value` type from `exp_parser.rs`: the calculated expression result.
`DateTime<Utc>` is modelled by the canonical RFC-3339 byte string of the
instant, so that equality is instant equality and `bytesLt` is the
chronological order (the canonical form is fixed-width).  `Object`
(`BTreeMap<String, Value>`) is a key-sorted association list. -/
inductive Value where
  | null
  | string (s : List Nat)
  | number (n : FNum)
  | bool (b : Bool)
  | datetime (d : List Nat)
  | object (o : List (List Nat × Value))
  | array (a : List Value)

mutual

/-- Rust's derived `PartialEq` on `Value`: structural, except that
numbers compare with `f64` partial equality (`FNum.feq`). -/
def veq : Value → Value → Bool
  | .null, .null => true
  | .string s1, .string s2 => decide (s1 = s2)
  | .number n1, .number n2 => FNum.feq n1 n2
  | .bool b1, .bool b2 => decide (b1 = b2)
  | .datetime d1, .datetime d2 => decide (d1 = d2)
  | .object o1, .object o2 => veqO o1 o2
  | .array a1, .array a2 => veqL a1 a2
  | _, _ => false

/-- Element-wise equality of `Vec<Value>`. -/
def veqL : List Value → List Value → Bool
  | [], [] => true
  | v :: t, v' :: t' => veq v v' && veqL t t'
  | _, _ => false

/-- Entry-wise equality of `BTreeMap<String, Value>` (both maps are
key-sorted, so entry order is canonical). -/
def veqO : List (List Nat × Value) → List (List Nat × Value) → Bool
  | [], [] => true
  | (k, v) :: t, (k', v') :: t' => decide (k = k') && veq v v' && veqO t t'
  | _, _ => false

end

mutual

/-- Returns `true` iff no `Number` inside the value is NaN. -/
def nanFree : Value → Bool
  | .number .nan => false
  | .number _ => true
  | .object o => nanFreeO o
  | .array a => nanFreeL a
  | _ => true

def nanFreeL : List Value → Bool
  | [] => true
  | v :: t => nanFree v && nanFreeL t

def nanFreeO : List (List Nat × Value) → Bool
  | [] => true
  | (_, v) :: t => nanFree v && nanFreeO t

end


/-- Membership in a `Vec<Value>` by `Vec::contains`, i.e. by `veq`. -/
def vcontains (a : List Value) (v : Value) : Bool :=
  match a with
  | [] => false
  | x :: t => veq x v || vcontains t v

/-! ## Lexer (`src/lexer.rs`) -/

/-- ASCII bytes of a Lean string literal (all sources in this file are
ASCII, where `Char.toNat` is the UTF-8 byte). -/
def bytes (s : String) : List Nat := s.data.map Char.toNat

/-- Transcribes `u8::is_ascii_whitespace`: space, tab, newline, form feed, carriage
return. -/
def isWsB (c : Nat) : Bool := c = 32 || c = 9 || c = 10 || c = 12 || c = 13

/-- Transcribes `u8::is_ascii_digit`. -/
def isDigitB (c : Nat) : Bool := 48 ≤ c && c ≤ 57

/-- Transcribes `u8::is_ascii_alphabetic`. -/
def isAlphaB (c : Nat) : Bool := (65 ≤ c && c ≤ 90) || (97 ≤ c && c ≤ 122)

/-- The count of leading bytes satisfying `p` (the index `take_while`
stops at). -/
def twCount (p : Nat → Bool) : List Nat → Nat
  | [] => 0
  | b :: t => if p b then twCount p t + 1 else 0

/-- Transcribes `take_while` from `lexer.rs`: `none` when no leading byte matches. -/
def twOpt (p : Nat → Bool) (l : List Nat) : Option Nat :=
  let c := twCount p l
  if c = 0 then none else some c

/-- The kind of `Token` (`lexer.rs`).  `In` is spelt `inKw` because `in`
is reserved in Lean; all other names follow the source. -/
inductive TokenKind where
  | selectorPath
  | quotedString
  | number
  | booleanTrue
  | booleanFalse
  | null
  | equals
  | add
  | subtract
  | multiply
  | divide
  | gt
  | gte
  | lt
  | lte
  | notOp
  | and
  | or
  | contains
  | containsAny
  | containsAll
  | inKw
  | between
  | startsWith
  | endsWith
  | openBracket
  | closeBracket
  | comma
  | openParen
  | closeParen
  | coerce
  | identifier
deriving DecidableEq

/-- The lexed token: `start`/`len` are byte offsets into the source
(`u32`/`u16` in the source, modelled as `Nat`). -/
structure Token where
  start : Nat
  len : Nat
  kind : TokenKind
deriving DecidableEq

/-- Lexer `Error`.  The source formats the offending bytes into a lossy
UTF-8 `String`; the payload here keeps the raw bytes instead.
`emptyInput` models the `panic!("invalid data passed")` on empty input,
which `next_token` never triggers. -/
inductive LexError where
  | invalidIdentifier (d : List Nat)
  | invalidNumber (d : List Nat)
  | invalidBool (d : List Nat)
  | invalidKeyword (d : List Nat)
  | unsupportedCharacter (b : Nat)
  | unterminatedString (d : List Nat)
  | emptyInput
deriving DecidableEq

/-- Transcribes `tokenize_identifier`: run to whitespace, `)`, `]` or `,`; the run
must be nonempty and end in `_`. -/
def tokenizeIdentifier (data : List Nat) : Except LexError (TokenKind × Nat) :=
  match twOpt (fun c => !isWsB c && c ≠ 41 && c ≠ 93 && c ≠ 44) data with
  | some e => if data.get? (e - 1) = some 95
      then .ok (.identifier, e)
      else .error (.invalidIdentifier data)
  | none => .error (.invalidIdentifier data)

/-- The state machine of `tokenize_string`'s closure over `data[1..]`:
returns the `take_while` count together with the `ended_with_terminator`
flag (`true` iff the scan stopped on an unescaped closing quote). -/
def strScan (quote : Nat) : List Nat → Bool → Nat × Bool
  | [], _ => (0, false)
  | c :: t, lastBackslash =>
      if c = 92 then
        let r := strScan quote t true
        (r.1 + 1, r.2)
      else if c = quote then
        if lastBackslash then
          let r := strScan quote t false
          (r.1 + 1, r.2)
        else (0, true)
      else
        let r := strScan quote t false
        (r.1 + 1, r.2)

/-- Transcribes `tokenize_string`: quoted by `quote`, backslash escapes the quote. -/
def tokenizeString (data : List Nat) (quote : Nat) : Except LexError (TokenKind × Nat) :=
  let r := strScan quote (data.drop 1) false
  if r.1 = 0 then
    if !r.2 || data.length < 2 then .error (.unterminatedString data)
    else .ok (.quotedString, 2)
  else
    if r.2 then .ok (.quotedString, r.1 + 2)
    else .error (.unterminatedString data)

/-- Transcribes `tokenize_selector_path`: after the `.`, run to whitespace, `)` or
`]`. -/
def tokenizeSelectorPath (data : List Nat) : Except LexError (TokenKind × Nat) :=
  match twOpt (fun c => !isWsB c && c ≠ 41 && c ≠ 93) (data.drop 1) with
  | some e => .ok (.selectorPath, e + 1)
  | none => .error (.invalidIdentifier data)

/-- Transcribes `tokenize_bool`: the maximal alphabetic run must be exactly `true`
or `false`. -/
def tokenizeBool (data : List Nat) : Except LexError (TokenKind × Nat) :=
  match twOpt isAlphaB data with
  | some e =>
      if data.take e = bytes "true" then .ok (.booleanTrue, e)
      else if data.take e = bytes "false" then .ok (.booleanFalse, e)
      else .error (.invalidBool data)
  | none => .error (.invalidBool data)

/-- Transcribes `tokenize_keyword`: the maximal non-whitespace run must equal the
keyword, and at least one byte must follow it (`data.len() >
keyword.len()`). -/
def tokenizeKeyword (data kw : List Nat) (kind : TokenKind) : Except LexError (TokenKind × Nat) :=
  match twOpt (fun c => !isWsB c) data with
  | some e =>
      if data.length > kw.length ∧ data.take e = kw then .ok (kind, e)
      else .error (.invalidKeyword data)
  | none => .error (.invalidKeyword data)

/-- Transcribes `tokenize_null`: the maximal alphabetic run must be exactly `NULL`. -/
def tokenizeNull (data : List Nat) : Except LexError (TokenKind × Nat) :=
  match twOpt isAlphaB data with
  | some e =>
      if data.take e = bytes "NULL" then .ok (.null, e)
      else .error (.invalidKeyword data)
  | none => .error (.invalidKeyword data)

/-- The state machine of `tokenize_number`'s closure: count of accepted
bytes plus the `bad_number` flag (a second `.` was seen).  The boolean
argument is `dot_seen`. -/
def numScan : List Nat → Bool → Nat × Bool
  | [], _ => (0, false)
  | c :: t, dotSeen =>
      if c = 46 then
        if dotSeen then (0, true)
        else
          let r := numScan t true
          (r.1 + 1, r.2)
      else if c = 45 || c = 43 || c = 101 then
        let r := numScan t dotSeen
        (r.1 + 1, r.2)
      else if isDigitB c then
        let r := numScan t dotSeen
        (r.1 + 1, r.2)
      else (0, false)

/-- Transcribes `tokenize_number`: digits with at most one `.`; `e`, `+`, `-`
accepted anywhere inside (validated later by the numeric parse). -/
def tokenizeNumber (data : List Nat) : Except LexError (TokenKind × Nat) :=
  let r := numScan data false
  if r.1 = 0 ∨ r.2 then .error (.invalidNumber data)
  else .ok (.number, r.1)

/-- Transcribes `data.get(1).map_or_else(|| false, u8::is_ascii_digit)`. -/
def digitAt1 (data : List Nat) : Bool :=
  match data.get? 1 with
  | some d => isDigitB d
  | none => false

/-- Transcribes `tokenize_single_token` from `lexer.rs`: single-byte dispatch with
two-byte peeking, in the source's match-arm order (the arms are mutually
exclusive on the first byte, so an if-chain is equivalent). -/
def tokenizeSingleToken (data : List Nat) : Except LexError (TokenKind × Nat) :=
  match data with
  | [] => .error .emptyInput
  | b :: _ =>
    if b = 61 then (if data.get? 1 = some 61 then .ok (.equals, 2) else .ok (.equals, 1))
    else if b = 43 then (if digitAt1 data then tokenizeNumber data else .ok (.add, 1))
    else if b = 45 then (if digitAt1 data then tokenizeNumber data else .ok (.subtract, 1))
    else if b = 42 then .ok (.multiply, 1)
    else if b = 47 then .ok (.divide, 1)
    else if b = 62 then (if data.get? 1 = some 61 then .ok (.gte, 2) else .ok (.gt, 1))
    else if b = 60 then (if data.get? 1 = some 61 then .ok (.lte, 2) else .ok (.lt, 1))
    else if b = 40 then .ok (.openParen, 1)
    else if b = 41 then .ok (.closeParen, 1)
    else if b = 91 then .ok (.openBracket, 1)
    else if b = 93 then .ok (.closeBracket, 1)
    else if b = 44 then .ok (.comma, 1)
    else if b = 33 then .ok (.notOp, 1)
    else if b = 34 || b = 39 then tokenizeString data b
    else if b = 46 then tokenizeSelectorPath data
    else if b = 116 || b = 102 then tokenizeBool data
    else if b = 38 then (if data.get? 1 = some 38 then .ok (.and, 2) else .error (.unsupportedCharacter b))
    else if b = 124 then (if data.get? 1 = some 124 then .ok (.or, 2) else .error (.unsupportedCharacter b))
    else if b = 79 then tokenizeKeyword data (bytes "OR") .or
    else if b = 67 then
      (if data.get? 2 = some 78 then
        (if data.get? 8 = some 95 then
          (if data.get? 10 = some 78 then tokenizeKeyword data (bytes "CONTAINS_ANY") .containsAny
           else tokenizeKeyword data (bytes "CONTAINS_ALL") .containsAll)
         else tokenizeKeyword data (bytes "CONTAINS") .contains)
       else tokenizeKeyword data (bytes "COERCE") .coerce)
    else if b = 73 then tokenizeKeyword data (bytes "IN") .inKw
    else if b = 83 then tokenizeKeyword data (bytes "STARTS_WITH") .startsWith
    else if b = 69 then tokenizeKeyword data (bytes "ENDS_WITH") .endsWith
    else if b = 66 then tokenizeKeyword data (bytes "BETWEEN") .between
    else if b = 78 then tokenizeNull data
    else if b = 95 then tokenizeIdentifier data
    else if isDigitB b then tokenizeNumber data
    else .error (.unsupportedCharacter b)

/-- Transcribes `Tokenizer::next_token` at position `pos` of source `exp`: skip
ASCII whitespace, then lex one token; `none` at end of input.  Returns
the token together with the new cursor position. -/
def nextToken (exp : List Nat) (pos : Nat) : Except LexError (Option (Token × Nat)) :=
  let rem := exp.drop pos
  let skipped := twCount isWsB rem
  let rem2 := rem.drop skipped
  if rem2.isEmpty then .ok none
  else
    match tokenizeSingleToken rem2 with
    | .error e => .error e
    | .ok (k, n) => .ok (some ({ start := pos + skipped, len := n, kind := k }, pos + skipped + n))


/-- The token stream of `Tokenizer` as an `Iterator`: repeatedly
`next_token` until `None`; the first lex error aborts the stream.  The
`fuel` argument only forces totality: one unit is spent per token, and
each token advances the cursor by at least one byte, so any fuel above
`exp.length` is never exhausted (`tokensFromF_stable` below). -/
def tokensFromF (exp : List Nat) : Nat → Nat → Except LexError (List Token)
  | 0, _ => .ok []
  | fuel + 1, pos =>
      match nextToken exp pos with
      | .error e => .error e
      | .ok none => .ok []
      | .ok (some (t, p')) =>
          match tokensFromF exp fuel p' with
          | .error e => .error e
          | .ok ts => .ok (t :: ts)

/-- All tokens of a source, from position 0. -/
def tokens (exp : List Nat) : Except LexError (List Token) :=
  tokensFromF exp (exp.length + 1) 0


/-! ## Evaluator (`exp_parser.rs`): `Value` operations and the node tree -/

/-- Modelled from the spec: the JSON-path extraction
`extract(document_bytes, path) → JsonValue` is an opaque external
function (`gjson::get_bytes`, which lives outside `src/`), and missing
paths map to Null.  A document is therefore modelled by its extraction
oracle: the function taking a selector path (the bytes after the
leading `.`) to the extracted, converted `Value`. -/
def Doc : Type := List Nat → Value

/-- The empty document `&[]` used for parse-time constant folding:
every extraction misses. -/
def emptyDoc : Doc := fun _ => Value.null

/-- Modelled from the spec: `anydate::parse_utc` (an external crate) —
"attempt to parse `s` as an absolute instant (UTC); on failure return
Null".  The model accepts the canonical RFC-3339 UTC form
`YYYY-MM-DDTHH:MM:SSZ` and represents the instant by that canonical
byte string (on which byte-wise order is chronological order). -/
def parseUTC (s : List Nat) : Option (List Nat) :=
  match s with
  | [y1, y2, y3, y4, d1, m1, m2, d2, dd1, dd2, tt, h1, h2, c1, mi1, mi2, c2, s1, s2, z] =>
      if isDigitB y1 && isDigitB y2 && isDigitB y3 && isDigitB y4
         && (d1 == 45) && isDigitB m1 && isDigitB m2 && (d2 == 45)
         && isDigitB dd1 && isDigitB dd2 && (tt == 84)
         && isDigitB h1 && isDigitB h2 && (c1 == 58)
         && isDigitB mi1 && isDigitB mi2 && (c2 == 58)
         && isDigitB s1 && isDigitB s2 && (z == 90)
         && decide (1 ≤ 10 * (m1 - 48) + (m2 - 48)) && decide (10 * (m1 - 48) + (m2 - 48) ≤ 12)
         && decide (1 ≤ 10 * (dd1 - 48) + (dd2 - 48)) && decide (10 * (dd1 - 48) + (dd2 - 48) ≤ 31)
         && decide (10 * (h1 - 48) + (h2 - 48) ≤ 23)
         && decide (10 * (mi1 - 48) + (mi2 - 48) ≤ 59)
         && decide (10 * (s1 - 48) + (s2 - 48) ≤ 59)
      then some s else none
  | _ => none

/-- Transcribes `str::starts_with` on bytes. -/
def bytesStartsWith : List Nat → List Nat → Bool
  | _, [] => true
  | [], _ :: _ => false
  | a :: s, b :: p => (a == b) && bytesStartsWith s p

/-- Transcribes `str::ends_with` on bytes. -/
def bytesEndsWith (s suf : List Nat) : Bool := bytesStartsWith s.reverse suf.reverse

/-- Transcribes `str::contains` (substring test) on bytes. -/
def bytesContains : List Nat → List Nat → Bool
  | [], pat => pat.isEmpty
  | s@(_ :: t), pat => bytesStartsWith s pat || bytesContains t pat

/-- Transcribes `str::to_lowercase`, restricted to ASCII (the spec allows an
ASCII-only case folding). -/
def lowerBytes (s : List Nat) : List Nat :=
  s.map (fun c => if 65 ≤ c ∧ c ≤ 90 then c + 32 else c)

/-- Transcribes `str::to_uppercase`, restricted to ASCII. -/
def upperBytes (s : List Nat) : List Nat :=
  s.map (fun c => if 97 ≤ c ∧ c ≤ 122 then c - 32 else c)

/-- Evaluator `Error` from `exp_parser.rs`.  The source formats a
human-readable detail string from the offending operand values; the
payload here keeps those values instead of their formatted text. -/
inductive EvalError where
  | unsupportedTypeComparison (vals : List Value)
  | unsupportedCOERCE (vals : List Value)

/-- The tree of `Expression` nodes from `exp_parser.rs`, one constructor
per node struct (`Add`, `Sub`, …, `SelectorPath`, `Str`, `Num`, `Bool`,
`Null`, `Arr`, `COERCEDateTime`, `CoerceLowercase`, `CoerceUppercase`,
`CoercedConst`, `Not`).  `Num` stores the parsed `f64` (a finite float,
modelled exactly); `In` is spelt `isIn` and `Not` `notOp` because of
Lean keywords. -/
inductive Exp where
  | selectorPath (ident : List Nat)
  | str (s : List Nat)
  | num (n : Frac)
  | boolLit (b : Bool)
  | nullLit
  | arr (elems : List Exp)
  | add (left right : Exp)
  | sub (left right : Exp)
  | mult (left right : Exp)
  | div (left right : Exp)
  | eq (left right : Exp)
  | gt (left right : Exp)
  | gte (left right : Exp)
  | lt (left right : Exp)
  | lte (left right : Exp)
  | or (left right : Exp)
  | and (left right : Exp)
  | startsWith (left right : Exp)
  | endsWith (left right : Exp)
  | isIn (left right : Exp)
  | contains (left right : Exp)
  | containsAny (left right : Exp)
  | containsAll (left right : Exp)
  | between (left right value : Exp)
  | coerceDateTime (value : Exp)
  | coerceLowercase (value : Exp)
  | coerceUppercase (value : Exp)
  | coercedConst (value : Value)
  | notOp (value : Exp)

mutual

/-- Transcribes `Expression::calculate(json)`: evaluate a node tree against a
document.  Each arm transcribes the corresponding `impl Expression for
…` block of `exp_parser.rs`; `CONTAINS_ANY`/`CONTAINS_ALL` character
granularity is modelled at byte level (ASCII). -/
def calculate : Exp → Doc → Except EvalError Value
  | .selectorPath ident, doc => .ok (doc ident)
  | .str s, _ => .ok (.string s)
  | .num n, _ => .ok (.number (.finite n))
  | .boolLit b, _ => .ok (.bool b)
  | .nullLit, _ => .ok .null
  | .arr es, doc =>
      match calcList es doc with
      | .error e => .error e
      | .ok vs => .ok (.array vs)
  | .add l r, doc => do
      let left ← calculate l doc
      let right ← calculate r doc
      match left, right with
      | .string s1, .string s2 => .ok (.string (s1 ++ s2))
      | .string s1, .null => .ok (.string s1)
      | .null, .string s2 => .ok (.string s2)
      | .number n1, .number n2 => .ok (.number (FNum.fadd n1 n2))
      | .number n1, .null => .ok (.number n1)
      | .null, .number n2 => .ok (.number n2)
      | l, r => .error (.unsupportedTypeComparison [l, r])
  | .sub l r, doc => do
      let left ← calculate l doc
      let right ← calculate r doc
      match left, right with
      | .number n1, .number n2 => .ok (.number (FNum.fsub n1 n2))
      | l, r => .error (.unsupportedTypeComparison [l, r])
  | .mult l r, doc => do
      let left ← calculate l doc
      let right ← calculate r doc
      match left, right with
      | .number n1, .number n2 => .ok (.number (FNum.fmul n1 n2))
      | l, r => .error (.unsupportedTypeComparison [l, r])
  | .div l r, doc => do
      let left ← calculate l doc
      let right ← calculate r doc
      match left, right with
      | .number n1, .number n2 => .ok (.number (FNum.fdiv n1 n2))
      | l, r => .error (.unsupportedTypeComparison [l, r])
  | .eq l r, doc => do
      let left ← calculate l doc
      let right ← calculate r doc
      .ok (.bool (veq left right))
  | .gt l r, doc => do
      let left ← calculate l doc
      let right ← calculate r doc
      match left, right with
      | .string s1, .string s2 => .ok (.bool (bytesLt s2 s1))
      | .number n1, .number n2 => .ok (.bool (FNum.flt n2 n1))
      | .datetime d1, .datetime d2 => .ok (.bool (bytesLt d2 d1))
      | l, r => .error (.unsupportedTypeComparison [l, r])
  | .gte l r, doc => do
      let left ← calculate l doc
      let right ← calculate r doc
      match left, right with
      | .string s1, .string s2 => .ok (.bool (bytesLe s2 s1))
      | .number n1, .number n2 => .ok (.bool (FNum.fle n2 n1))
      | .datetime d1, .datetime d2 => .ok (.bool (bytesLe d2 d1))
      | l, r => .error (.unsupportedTypeComparison [l, r])
  | .lt l r, doc => do
      let left ← calculate l doc
      let right ← calculate r doc
      match left, right with
      | .string s1, .string s2 => .ok (.bool (bytesLt s1 s2))
      | .number n1, .number n2 => .ok (.bool (FNum.flt n1 n2))
      | .datetime d1, .datetime d2 => .ok (.bool (bytesLt d1 d2))
      | l, r => .error (.unsupportedTypeComparison [l, r])
  | .lte l r, doc => do
      let left ← calculate l doc
      let right ← calculate r doc
      match left, right with
      | .string s1, .string s2 => .ok (.bool (bytesLe s1 s2))
      | .number n1, .number n2 => .ok (.bool (FNum.fle n1 n2))
      | .datetime d1, .datetime d2 => .ok (.bool (bytesLe d1 d2))
      | l, r => .error (.unsupportedTypeComparison [l, r])
  | .or l r, doc => do
      let left ← calculate l doc
      let right ← calculate r doc
      match left, right with
      | .bool b1, .bool b2 => .ok (.bool (b1 || b2))
      | l, r => .error (.unsupportedTypeComparison [l, r])
  | .and l r, doc => do
      let left ← calculate l doc
      let right ← calculate r doc
      match left, right with
      | .bool b1, .bool b2 => .ok (.bool (b1 && b2))
      | l, r => .error (.unsupportedTypeComparison [l, r])
  | .startsWith l r, doc => do
      let left ← calculate l doc
      let right ← calculate r doc
      match left, right with
      | .string s1, .string s2 => .ok (.bool (bytesStartsWith s1 s2))
      | l, r => .error (.unsupportedTypeComparison [l, r])
  | .endsWith l r, doc => do
      let left ← calculate l doc
      let right ← calculate r doc
      match left, right with
      | .string s1, .string s2 => .ok (.bool (bytesEndsWith s1 s2))
      | l, r => .error (.unsupportedTypeComparison [l, r])
  | .isIn l r, doc => do
      let left ← calculate l doc
      let right ← calculate r doc
      match left, right with
      | v, .array a => .ok (.bool (vcontains a v))
      | l, r => .error (.unsupportedTypeComparison [l, r])
  | .contains l r, doc => do
      let left ← calculate l doc
      let right ← calculate r doc
      match left, right with
      | .string s1, .string s2 => .ok (.bool (bytesContains s1 s2))
      | .array a, v => .ok (.bool (vcontains a v))
      | l, r => .error (.unsupportedTypeComparison [l, r])
  | .containsAny l r, doc => do
      let left ← calculate l doc
      let right ← calculate r doc
      match left, right with
      | .string s1, .string s2 => .ok (.bool (s2.any (fun c => s1.contains c)))
      | .array a1, .array a2 => .ok (.bool (a2.any (fun v => vcontains a1 v)))
      | .array a, .string s => .ok (.bool (s.any (fun c => vcontains a (.string [c]))))
      | .string s, .array a =>
          .ok (.bool (a.any (fun v =>
            match v with
            | .string s2 => bytesContains s s2
            | _ => false)))
      | l, r => .error (.unsupportedTypeComparison [l, r])
  | .containsAll l r, doc => do
      let left ← calculate l doc
      let right ← calculate r doc
      match left, right with
      | .string s1, .string s2 => .ok (.bool (s2.all (fun c => s1.contains c)))
      | .array a1, .array a2 => .ok (.bool (a2.all (fun v => vcontains a1 v)))
      | .array a, .string s => .ok (.bool (s.all (fun c => vcontains a (.string [c]))))
      | .string s, .array a =>
          .ok (.bool (a.all (fun v =>
            match v with
            | .string s2 => bytesContains s s2
            | _ => false)))
      | l, r => .error (.unsupportedTypeComparison [l, r])
  | .between l r v, doc => do
      let left ← calculate l doc
      let right ← calculate r doc
      let value ← calculate v doc
      match value, left, right with
      | .string vv, .string lhs, .string rhs => .ok (.bool (bytesLt lhs vv && bytesLt vv rhs))
      | .number vv, .number lhs, .number rhs => .ok (.bool (FNum.flt lhs vv && FNum.flt vv rhs))
      | .datetime vv, .datetime lhs, .datetime rhs => .ok (.bool (bytesLt lhs vv && bytesLt vv rhs))
      | .null, _, _ => .ok (.bool false)
      | _, .null, _ => .ok (.bool false)
      | _, _, .null => .ok (.bool false)
      | vv, lhs, rhs => .error (.unsupportedTypeComparison [vv, lhs, rhs])
  | .coerceDateTime v, doc => do
      let value ← calculate v doc
      match value with
      | .string s =>
          match parseUTC s with
          | none => .ok .null
          | some d => .ok (.datetime d)
      | .null => .ok .null
      | value => .error (.unsupportedCOERCE [value])
  | .coerceLowercase v, doc => do
      let value ← calculate v doc
      match value with
      | .string s => .ok (.string (lowerBytes s))
      | value => .error (.unsupportedCOERCE [value])
  | .coerceUppercase v, doc => do
      let value ← calculate v doc
      match value with
      | .string s => .ok (.string (upperBytes s))
      | value => .error (.unsupportedCOERCE [value])
  | .coercedConst v, _ => .ok v
  | .notOp v, doc => do
      let value ← calculate v doc
      match value with
      | .bool b => .ok (.bool !b)
      | value => .error (.unsupportedTypeComparison [value])

/-- Evaluation of `Arr`'s element vector, left to right, first error
aborts. -/
def calcList : List Exp → Doc → Except EvalError (List Value)
  | [], _ => .ok []
  | e :: t, doc =>
      match calculate e doc with
      | .error err => .error err
      | .ok v =>
          match calcList t doc with
          | .error err => .error err
          | .ok vs => .ok (v :: vs)

end

/-! ## Parser (`exp_parser.rs`) -/

/-- Parser-level errors (`anyhow::Error` in the source): a forwarded
lex error, a parse error with its message, a forwarded evaluation error
(raised by `?` on `calculate` during parse-time constant folding), or a
numeric-literal parse failure (`str::parse::<f64>`).  `outOfFuel` is a
model artifact: the Lean parser spends fuel on every step, and
`parseBytes` supplies more fuel than any input can consume. -/
inductive PError where
  | lexErr (e : LexError)
  | parseErr (msg : String)
  | evalErr (e : EvalError)
  | numErr (text : List Nat)
  | outOfFuel

/-- Digit run to a natural number. -/
def digitsToNat (l : List Nat) : Nat := l.foldl (fun a c => a * 10 + (c - 48)) 0

/-- Transcribes `str::parse::<f64>` on the text of a `Number` token, modelled as
exact rational parsing of the same surface grammar
`[sign] (digits [. digits] | . digits | digits .) [e [sign] digits]`
(binary64 rounding abstracted away; malformed text such as `1-2` or a
trailing exponent marker is rejected, surfacing as a parse error). -/
def parseF64 (l : List Nat) : Option Frac :=
  let sr : Bool × List Nat :=
    match l with
    | 43 :: t => (false, t)
    | 45 :: t => (true, t)
    | _ => (false, l)
  let m1 := sr.2.span isDigitB
  let fr : List Nat × List Nat :=
    match m1.2 with
    | 46 :: t => t.span isDigitB
    | _ => ([], m1.2)
  if m1.1.isEmpty && fr.1.isEmpty then none
  else
    let mnum : Int := (digitsToNat (m1.1 ++ fr.1) : Int)
    let mnum : Int := if sr.1 then -mnum else mnum
    match fr.2 with
    | [] => some ⟨mnum, 10 ^ fr.1.length, Nat.pos_pow_of_pos _ (by omega)⟩
    | 101 :: t =>
        let er : Bool × List Nat :=
          match t with
          | 43 :: u => (false, u)
          | 45 :: u => (true, u)
          | _ => (false, t)
        if er.2.isEmpty || !er.2.all isDigitB then none
        else
          let e := digitsToNat er.2
          if er.1 then
            some ⟨mnum, 10 ^ (fr.1.length + e), Nat.pos_pow_of_pos _ (by omega)⟩
          else
            some ⟨mnum * (10 : Int) ^ e, 10 ^ fr.1.length, Nat.pos_pow_of_pos _ (by omega)⟩
    | _ => none

/-- Transcribes `Parser::next_operator_token`: the next token, or a parse error at
end of input. -/
def nextOperatorToken (exp : List Nat) (pos : Nat) : Except PError (Token × Nat) :=
  match nextToken exp pos with
  | .error e => .error (.lexErr e)
  | .ok none => .error (.parseErr "no value found after operation")
  | .ok (some (t, p)) => .ok (t, p)

mutual

/-- Transcribes `Parser::parse_expression`: the shift/reduce loop.  `current` is the
expression parsed so far; a `CloseParen` ends the block; end of input
returns `current` as is. -/
def parseExpression (exp : List Nat) : Nat → Nat → Option Exp → Except PError (Option Exp × Nat)
  | 0, _, _ => .error .outOfFuel
  | fuel + 1, pos, current =>
      match nextToken exp pos with
      | .error e => .error (.lexErr e)
      | .ok none => .ok (current, pos)
      | .ok (some (tok, pos1)) =>
          match current with
          | some expression =>
              if tok.kind = TokenKind.closeParen then .ok (some expression, pos1)
              else
                match parseOperation exp fuel pos1 tok expression with
                | .error e => .error e
                | .ok (c, pos2) => parseExpression exp fuel pos2 c
          | none =>
              match parseValue exp fuel pos1 tok with
              | .error e => .error e
              | .ok (v, pos2) => parseExpression exp fuel pos2 (some v)

termination_by structural fuel pos cur => fuel
/-- Transcribes `Parser::parse_value`: literal, selector, array, parenthesised
expression, COERCE, or prefix NOT. -/

def parseValue (exp : List Nat) : Nat → Nat → Token → Except PError (Exp × Nat)
  | 0, _, _ => .error .outOfFuel
  | fuel + 1, pos, tok =>
      match tok.kind with
      | .openBracket =>
          match parseArrayElems exp fuel pos with
          | .error e => .error e
          | .ok (elems, pos1) => .ok (.arr elems, pos1)
      | .openParen =>
          match parseExpression exp fuel pos none with
          | .error e => .error e
          | .ok (some e, pos1) => .ok (e, pos1)
          | .ok (none, _) =>
              .error (.parseErr "expression after open parenthesis ends unexpectedly")
      | .selectorPath => .ok (.selectorPath ((exp.drop (tok.start + 1)).take (tok.len - 1)), pos)
      | .quotedString => .ok (.str ((exp.drop (tok.start + 1)).take (tok.len - 2)), pos)
      | .number =>
          match parseF64 ((exp.drop tok.start).take tok.len) with
          | none => .error (.numErr ((exp.drop tok.start).take tok.len))
          | some q => .ok (.num q, pos)
      | .booleanTrue => .ok (.boolLit true, pos)
      | .booleanFalse => .ok (.boolLit false, pos)
      | .null => .ok (.nullLit, pos)
      | .coerce =>
          match nextOperatorToken exp pos with
          | .error e => .error e
          | .ok (nt, pos1) =>
              let constEligible : Bool :=
                decide (nt.kind = TokenKind.quotedString ∨ nt.kind = TokenKind.number ∨
                  nt.kind = TokenKind.booleanFalse ∨ nt.kind = TokenKind.booleanTrue ∨
                  nt.kind = TokenKind.null)
              match parseValue exp fuel pos1 nt with
              | .error e => .error e
              | .ok (v, pos2) => coerceLoop exp fuel pos2 v constEligible
      | .notOp =>
          match nextOperatorToken exp pos with
          | .error e => .error e
          | .ok (nt, pos1) =>
              match parseValue exp fuel pos1 nt with
              | .error e => .error e
              | .ok (v, pos2) => .ok (.notOp v, pos2)
      | _ => .error (.parseErr "token is not a valid value")

termination_by structural fuel pos tok => fuel
/-- The loop inside `parse_value`'s `OpenBracket` arm: elements until
`]`, commas optional, end of input is "unclosed Array". -/

def parseArrayElems (exp : List Nat) : Nat → Nat → Except PError (List Exp × Nat)
  | 0, _ => .error .outOfFuel
  | fuel + 1, pos =>
      match nextToken exp pos with
      | .error e => .error (.lexErr e)
      | .ok none => .error (.parseErr "unclosed Array")
      | .ok (some (tok, pos1)) =>
          match tok.kind with
          | .closeBracket => .ok ([], pos1)
          | .comma => parseArrayElems exp fuel pos1
          | _ =>
              match parseValue exp fuel pos1 tok with
              | .error e => .error e
              | .ok (v, pos2) =>
                  match parseArrayElems exp fuel pos2 with
                  | .error e => .error e
                  | .ok (rest, pos3) => .ok (v :: rest, pos3)

termination_by structural fuel pos => fuel
/-- The loop inside `parse_value`'s `Coerce` arm: one identifier is
mandatory; `_datetime_` on a literal operand is folded at parse time by
evaluating against the empty document (`calculate(&[])?`); a peeked
comma continues the chain. -/

def coerceLoop (exp : List Nat) : Nat → Nat → Exp → Bool → Except PError (Exp × Nat)
  | 0, _, _, _ => .error .outOfFuel
  | fuel + 1, pos, expression, constEligible =>
      match nextToken exp pos with
      | .error e => .error (.lexErr e)
      | .ok none => .error (.parseErr "no identifier after value for COERCE")
      | .ok (some (tok, pos1)) =>
          if tok.kind = TokenKind.identifier then
            match
              ((if (exp.drop tok.start).take tok.len = bytes "_datetime_" then
                 (if constEligible then
                    match calculate (.coerceDateTime expression) emptyDoc with
                    | .error e => .error (.evalErr e)
                    | .ok v => .ok (Exp.coercedConst v)
                  else .ok (Exp.coerceDateTime expression))
               else if (exp.drop tok.start).take tok.len = bytes "_lowercase_" then
                 .ok (Exp.coerceLowercase expression)
               else if (exp.drop tok.start).take tok.len = bytes "_uppercase_" then
                 .ok (Exp.coerceUppercase expression)
               else .error (.parseErr "invalid COERCE data type")) :
                Except PError Exp) with
            | .error e => .error e
            | .ok e2 =>
                match nextToken exp pos1 with
                | .ok (some (t2, pos2)) =>
                    if t2.kind = TokenKind.comma then coerceLoop exp fuel pos2 e2 constEligible
                    else .ok (e2, pos1)
                | _ => .ok (e2, pos1)
          else .error (.parseErr "COERCE missing data type identifier")

termination_by structural fuel pos e ce => fuel
/-- The common shape of `parse_operation`'s binary arms:
`next_operator_token` then `parse_value` for the right operand. -/

def parseBinaryRhs (exp : List Nat) : Nat → Nat → Except PError (Exp × Nat)
  | 0, _ => .error .outOfFuel
  | fuel + 1, pos =>
      match nextOperatorToken exp pos with
      | .error e => .error e
      | .ok (nt, pos1) => parseValue exp fuel pos1 nt

termination_by structural fuel pos => fuel
/-- Transcribes `Parser::parse_operation`: one binary (or ternary `BETWEEN`, or
postfix-NOT) step with `current` as the left operand.  After `||` and
`&&` a whole expression is parsed recursively. -/

def parseOperation (exp : List Nat) : Nat → Nat → Token → Exp → Except PError (Option Exp × Nat)
  | 0, _, _, _ => .error .outOfFuel
  | fuel + 1, pos, tok, current =>
      match tok.kind with
      | .add =>
          match parseBinaryRhs exp fuel pos with
          | .error e => .error e
          | .ok (r, pos1) => .ok (some (.add current r), pos1)
      | .subtract =>
          match parseBinaryRhs exp fuel pos with
          | .error e => .error e
          | .ok (r, pos1) => .ok (some (.sub current r), pos1)
      | .multiply =>
          match parseBinaryRhs exp fuel pos with
          | .error e => .error e
          | .ok (r, pos1) => .ok (some (.mult current r), pos1)
      | .divide =>
          match parseBinaryRhs exp fuel pos with
          | .error e => .error e
          | .ok (r, pos1) => .ok (some (.div current r), pos1)
      | .equals =>
          match parseBinaryRhs exp fuel pos with
          | .error e => .error e
          | .ok (r, pos1) => .ok (some (.eq current r), pos1)
      | .gt =>
          match parseBinaryRhs exp fuel pos with
          | .error e => .error e
          | .ok (r, pos1) => .ok (some (.gt current r), pos1)
      | .gte =>
          match parseBinaryRhs exp fuel pos with
          | .error e => .error e
          | .ok (r, pos1) => .ok (some (.gte current r), pos1)
      | .lt =>
          match parseBinaryRhs exp fuel pos with
          | .error e => .error e
          | .ok (r, pos1) => .ok (some (.lt current r), pos1)
      | .lte =>
          match parseBinaryRhs exp fuel pos with
          | .error e => .error e
          | .ok (r, pos1) => .ok (some (.lte current r), pos1)
      | .or =>
          match parseExpression exp fuel pos none with
          | .error e => .error e
          | .ok (none, _) => .error (.parseErr "invalid operation after or-operator")
          | .ok (some r, pos1) => .ok (some (.or current r), pos1)
      | .and =>
          match parseExpression exp fuel pos none with
          | .error e => .error e
          | .ok (none, _) => .error (.parseErr "invalid operation after and-operator")
          | .ok (some r, pos1) => .ok (some (.and current r), pos1)
      | .startsWith =>
          match parseBinaryRhs exp fuel pos with
          | .error e => .error e
          | .ok (r, pos1) => .ok (some (.startsWith current r), pos1)
      | .endsWith =>
          match parseBinaryRhs exp fuel pos with
          | .error e => .error e
          | .ok (r, pos1) => .ok (some (.endsWith current r), pos1)
      | .inKw =>
          match parseBinaryRhs exp fuel pos with
          | .error e => .error e
          | .ok (r, pos1) => .ok (some (.isIn current r), pos1)
      | .contains =>
          match parseBinaryRhs exp fuel pos with
          | .error e => .error e
          | .ok (r, pos1) => .ok (some (.contains current r), pos1)
      | .containsAny =>
          match parseBinaryRhs exp fuel pos with
          | .error e => .error e
          | .ok (r, pos1) => .ok (some (.containsAny current r), pos1)
      | .containsAll =>
          match parseBinaryRhs exp fuel pos with
          | .error e => .error e
          | .ok (r, pos1) => .ok (some (.containsAll current r), pos1)
      | .between =>
          match parseBinaryRhs exp fuel pos with
          | .error e => .error e
          | .ok (l, pos1) =>
              match parseBinaryRhs exp fuel pos1 with
              | .error e => .error e
              | .ok (r, pos2) => .ok (some (.between l r current), pos2)
      | .notOp =>
          match nextOperatorToken exp pos with
          | .error e => .error e
          | .ok (nt, pos1) =>
              match parseOperation exp fuel pos1 nt current with
              | .error e => .error e
              | .ok (none, _) => .error (.parseErr "invalid operation after not-operator")
              | .ok (some v, pos2) => .ok (some (.notOp v), pos2)
      | .closeBracket => .ok (some current, pos)
      | _ => .error (.parseErr "invalid operation")

termination_by structural fuel pos tok cur => fuel
end

/-- Transcribes `Parser::parse_bytes`: run `parse_expression` on the whole input; no
resulting expression is an error.  The fuel `4 * exp.length + 8` is an
upper bound on the number of parser steps (each step consumes input or
is charged to a token). -/
def parseBytes (exp : List Nat) : Except PError Exp :=
  match parseExpression exp (4 * exp.length + 8) 0 none with
  | .error e => .error e
  | .ok (some e, _) => .ok e
  | .ok (none, _) => .error (.parseErr "no expression results found")

/-- Transcribes `Parser::parse` on a string. -/
def parse (s : String) : Except PError Exp := parseBytes (bytes s)

/-! ## Shape helpers used by the specification statements -/

def Value.isString : Value → Bool
  | .string _ => true
  | _ => false

def Value.isNumber : Value → Bool
  | .number _ => true
  | _ => false

def Value.isBool : Value → Bool
  | .bool _ => true
  | _ => false

def Value.isDateTime : Value → Bool
  | .datetime _ => true
  | _ => false

def Value.isNull : Value → Bool
  | .null => true
  | _ => false

def Value.isArray : Value → Bool
  | .array _ => true
  | _ => false

/-- The variant tag of a `Value` (two values of different variants have
different tags). -/
def vtag : Value → Nat
  | .null => 0
  | .string _ => 1
  | .number _ => 2
  | .bool _ => 3
  | .datetime _ => 4
  | .object _ => 5
  | .array _ => 6

/-- Transcribes `BTreeMap::insert` on the key-sorted association list modelling
`Object`: insert before the first larger key, replace an equal key. -/
def objInsert (k : List Nat) (v : Value) : List (List Nat × Value) → List (List Nat × Value)
  | [] => [(k, v)]
  | (k', v') :: t =>
      if bytesLt k k' then (k, v) :: (k', v') :: t
      else if k = k' then (k, v) :: t
      else (k', v') :: objInsert k v t


/-! ## Theorems -/

/-! ### Bounds of a single lexing step -/

theorem twCount_le (p : Nat → Bool) : ∀ l : List Nat, twCount p l ≤ l.length := by
  intro l
  induction l with
  | nil => simp [twCount]
  | cons b t ih =>
      simp only [twCount, List.length_cons]
      split <;> omega

theorem twOpt_some {p : Nat → Bool} {l : List Nat} {e : Nat}
    (h : twOpt p l = some e) : 1 ≤ e ∧ e ≤ l.length := by
  have hle := twCount_le p l
  simp only [twOpt] at h
  split at h
  · exact absurd h (by simp)
  · cases h
    omega

theorem get?_some_lt : ∀ (l : List Nat) (i x : Nat), l.get? i = some x → i < l.length := by
  intro l
  induction l with
  | nil => intro i x h; simp [List.get?] at h
  | cons b t ih =>
      intro i x h
      cases i with
      | zero => simp
      | succ j =>
          simp only [List.get?] at h
          have := ih j x h
          simp only [List.length_cons]
          omega

theorem strScan_bounds (q : Nat) :
    ∀ (l : List Nat) (lb : Bool),
      (strScan q l lb).1 ≤ l.length ∧
      ((strScan q l lb).2 = true → (strScan q l lb).1 < l.length)
  | [], lb => by simp [strScan]
  | c :: t, lb => by
      have ih1 := strScan_bounds q t true
      have ih2 := strScan_bounds q t false
      rcases h1 : strScan q t true with ⟨n1, e1⟩
      rcases h2 : strScan q t false with ⟨n2, e2⟩
      rw [h1] at ih1
      rw [h2] at ih2
      simp only [strScan, h1, h2, List.length_cons]
      split
      · simp only []
        constructor
        · omega
        · intro he
          have := ih1.2 he
          omega
      · split
        · split
          · simp only []
            refine ⟨by omega, fun he => ?_⟩
            have := ih2.2 he
            omega
          · simp
        · simp only []
          refine ⟨by omega, fun he => ?_⟩
          have := ih2.2 he
          omega

theorem numScan_le : ∀ (l : List Nat) (d : Bool), (numScan l d).1 ≤ l.length
  | [], d => by simp [numScan]
  | c :: t, d => by
      have ih1 := numScan_le t true
      have ih2 := numScan_le t d
      rcases h1 : numScan t true with ⟨n1, e1⟩
      rcases h2 : numScan t d with ⟨n2, e2⟩
      rw [h1] at ih1
      rw [h2] at ih2
      simp only [numScan, h1, h2, List.length_cons]
      split
      · split
        · simp
        · simp only []
          omega
      · split
        · simp only []
          omega
        · split
          · simp only []
            omega
          · simp

theorem tokenizeIdentifier_bounds {data : List Nat} {k : TokenKind} {n : Nat}
    (h : tokenizeIdentifier data = .ok (k, n)) : 1 ≤ n ∧ n ≤ data.length := by
  unfold tokenizeIdentifier at h
  split at h
  · split at h
    · cases h
      exact twOpt_some (by assumption)
    · exact absurd h (by simp)
  · exact absurd h (by simp)

theorem tokenizeString_bounds {data : List Nat} {q : Nat} {k : TokenKind} {n : Nat}
    (h : tokenizeString data q = .ok (k, n)) : 1 ≤ n ∧ n ≤ data.length := by
  have hb := strScan_bounds q (data.drop 1) false
  rcases hs : strScan q (data.drop 1) false with ⟨m, e⟩
  rw [hs] at hb
  have hdl : (data.drop 1).length = data.length - 1 := by simp
  simp only [tokenizeString, hs] at h
  split at h
  · split at h
    · exact absurd h (by simp)
    · cases h
      rename_i hcond
      simp only [Bool.or_eq_true, not_or, Bool.not_eq_true, Bool.not_eq_false,
        decide_eq_true_eq] at hcond
      omega
  · split at h
    · cases h
      rename_i hn0 hterm
      have hlt := hb.2 hterm
      omega
    · exact absurd h (by simp)

theorem tokenizeSelectorPath_bounds {data : List Nat} {k : TokenKind} {n : Nat}
    (h : tokenizeSelectorPath data = .ok (k, n)) : 1 ≤ n ∧ n ≤ data.length := by
  unfold tokenizeSelectorPath at h
  split at h
  · cases h
    rename_i e heq
    have h2 := twOpt_some heq
    have hdl : (data.drop 1).length = data.length - 1 := by simp
    omega
  · exact absurd h (by simp)

theorem tokenizeBool_bounds {data : List Nat} {k : TokenKind} {n : Nat}
    (h : tokenizeBool data = .ok (k, n)) : 1 ≤ n ∧ n ≤ data.length := by
  unfold tokenizeBool at h
  split at h
  · split at h
    · cases h
      exact twOpt_some (by assumption)
    · split at h
      · cases h
        exact twOpt_some (by assumption)
      · exact absurd h (by simp)
  · exact absurd h (by simp)

theorem tokenizeKeyword_bounds {data kw : List Nat} {kd : TokenKind} {k : TokenKind} {n : Nat}
    (h : tokenizeKeyword data kw kd = .ok (k, n)) : 1 ≤ n ∧ n ≤ data.length := by
  unfold tokenizeKeyword at h
  split at h
  · split at h
    · cases h
      exact twOpt_some (by assumption)
    · exact absurd h (by simp)
  · exact absurd h (by simp)

theorem tokenizeNull_bounds {data : List Nat} {k : TokenKind} {n : Nat}
    (h : tokenizeNull data = .ok (k, n)) : 1 ≤ n ∧ n ≤ data.length := by
  unfold tokenizeNull at h
  split at h
  · split at h
    · cases h
      exact twOpt_some (by assumption)
    · exact absurd h (by simp)
  · exact absurd h (by simp)

theorem tokenizeNumber_bounds {data : List Nat} {k : TokenKind} {n : Nat}
    (h : tokenizeNumber data = .ok (k, n)) : 1 ≤ n ∧ n ≤ data.length := by
  have hle := numScan_le data false
  rcases hs : numScan data false with ⟨m, bad⟩
  rw [hs] at hle
  simp only [tokenizeNumber, hs] at h
  split at h
  · exact absurd h (by simp)
  · cases h
    rename_i hcond
    push_neg at hcond
    omega

theorem tokenizeSingleToken_bounds {data : List Nat} {k : TokenKind} {n : Nat}
    (h : tokenizeSingleToken data = .ok (k, n)) : 1 ≤ n ∧ n ≤ data.length := by
  unfold tokenizeSingleToken at h
  split at h
  · exact Except.noConfusion h
  · rename_i b t
    by_cases c1 : b = 61
    · rw [if_pos c1] at h
      by_cases g1 : (b :: t).get? 1 = some 61
      · rw [if_pos g1] at h
        cases h
        have hgl := get?_some_lt _ _ _ g1
        simp only [List.length_cons] at hgl ⊢
        omega
      · rw [if_neg g1] at h
        cases h
        simp only [List.length_cons]
        omega
    · rw [if_neg c1] at h
      by_cases c2 : b = 43
      · rw [if_pos c2] at h
        by_cases d2 : digitAt1 (b :: t) = true
        · rw [if_pos d2] at h
          exact tokenizeNumber_bounds h
        · rw [if_neg d2] at h
          cases h
          simp only [List.length_cons]
          omega
      · rw [if_neg c2] at h
        by_cases c3 : b = 45
        · rw [if_pos c3] at h
          by_cases d3 : digitAt1 (b :: t) = true
          · rw [if_pos d3] at h
            exact tokenizeNumber_bounds h
          · rw [if_neg d3] at h
            cases h
            simp only [List.length_cons]
            omega
        · rw [if_neg c3] at h
          by_cases c4 : b = 42
          · rw [if_pos c4] at h
            cases h
            simp only [List.length_cons]
            omega
          · rw [if_neg c4] at h
            by_cases c5 : b = 47
            · rw [if_pos c5] at h
              cases h
              simp only [List.length_cons]
              omega
            · rw [if_neg c5] at h
              by_cases c6 : b = 62
              · rw [if_pos c6] at h
                by_cases g6 : (b :: t).get? 1 = some 61
                · rw [if_pos g6] at h
                  cases h
                  have hgl := get?_some_lt _ _ _ g6
                  simp only [List.length_cons] at hgl ⊢
                  omega
                · rw [if_neg g6] at h
                  cases h
                  simp only [List.length_cons]
                  omega
              · rw [if_neg c6] at h
                by_cases c7 : b = 60
                · rw [if_pos c7] at h
                  by_cases g7 : (b :: t).get? 1 = some 61
                  · rw [if_pos g7] at h
                    cases h
                    have hgl := get?_some_lt _ _ _ g7
                    simp only [List.length_cons] at hgl ⊢
                    omega
                  · rw [if_neg g7] at h
                    cases h
                    simp only [List.length_cons]
                    omega
                · rw [if_neg c7] at h
                  by_cases c8 : b = 40
                  · rw [if_pos c8] at h
                    cases h
                    simp only [List.length_cons]
                    omega
                  · rw [if_neg c8] at h
                    by_cases c9 : b = 41
                    · rw [if_pos c9] at h
                      cases h
                      simp only [List.length_cons]
                      omega
                    · rw [if_neg c9] at h
                      by_cases c10 : b = 91
                      · rw [if_pos c10] at h
                        cases h
                        simp only [List.length_cons]
                        omega
                      · rw [if_neg c10] at h
                        by_cases c11 : b = 93
                        · rw [if_pos c11] at h
                          cases h
                          simp only [List.length_cons]
                          omega
                        · rw [if_neg c11] at h
                          by_cases c12 : b = 44
                          · rw [if_pos c12] at h
                            cases h
                            simp only [List.length_cons]
                            omega
                          · rw [if_neg c12] at h
                            by_cases c13 : b = 33
                            · rw [if_pos c13] at h
                              cases h
                              simp only [List.length_cons]
                              omega
                            · rw [if_neg c13] at h
                              by_cases c14 : (decide (b = 34) || decide (b = 39)) = true
                              · rw [if_pos c14] at h
                                exact tokenizeString_bounds h
                              · rw [if_neg c14] at h
                                by_cases c15 : b = 46
                                · rw [if_pos c15] at h
                                  exact tokenizeSelectorPath_bounds h
                                · rw [if_neg c15] at h
                                  by_cases c16 : (decide (b = 116) || decide (b = 102)) = true
                                  · rw [if_pos c16] at h
                                    exact tokenizeBool_bounds h
                                  · rw [if_neg c16] at h
                                    by_cases c17 : b = 38
                                    · rw [if_pos c17] at h
                                      by_cases g17 : (b :: t).get? 1 = some 38
                                      · rw [if_pos g17] at h
                                        cases h
                                        have hgl := get?_some_lt _ _ _ g17
                                        simp only [List.length_cons] at hgl ⊢
                                        omega
                                      · rw [if_neg g17] at h
                                        exact Except.noConfusion h
                                    · rw [if_neg c17] at h
                                      by_cases c18 : b = 124
                                      · rw [if_pos c18] at h
                                        by_cases g18 : (b :: t).get? 1 = some 124
                                        · rw [if_pos g18] at h
                                          cases h
                                          have hgl := get?_some_lt _ _ _ g18
                                          simp only [List.length_cons] at hgl ⊢
                                          omega
                                        · rw [if_neg g18] at h
                                          exact Except.noConfusion h
                                      · rw [if_neg c18] at h
                                        by_cases c19 : b = 79
                                        · rw [if_pos c19] at h
                                          exact tokenizeKeyword_bounds h
                                        · rw [if_neg c19] at h
                                          by_cases c20 : b = 67
                                          · rw [if_pos c20] at h
                                            by_cases g20a : (b :: t).get? 2 = some 78
                                            · rw [if_pos g20a] at h
                                              by_cases g20b : (b :: t).get? 8 = some 95
                                              · rw [if_pos g20b] at h
                                                by_cases g20c : (b :: t).get? 10 = some 78
                                                · rw [if_pos g20c] at h
                                                  exact tokenizeKeyword_bounds h
                                                · rw [if_neg g20c] at h
                                                  exact tokenizeKeyword_bounds h
                                              · rw [if_neg g20b] at h
                                                exact tokenizeKeyword_bounds h
                                            · rw [if_neg g20a] at h
                                              exact tokenizeKeyword_bounds h
                                          · rw [if_neg c20] at h
                                            by_cases c21 : b = 73
                                            · rw [if_pos c21] at h
                                              exact tokenizeKeyword_bounds h
                                            · rw [if_neg c21] at h
                                              by_cases c22 : b = 83
                                              · rw [if_pos c22] at h
                                                exact tokenizeKeyword_bounds h
                                              · rw [if_neg c22] at h
                                                by_cases c23 : b = 69
                                                · rw [if_pos c23] at h
                                                  exact tokenizeKeyword_bounds h
                                                · rw [if_neg c23] at h
                                                  by_cases c24 : b = 66
                                                  · rw [if_pos c24] at h
                                                    exact tokenizeKeyword_bounds h
                                                  · rw [if_neg c24] at h
                                                    by_cases c25 : b = 78
                                                    · rw [if_pos c25] at h
                                                      exact tokenizeNull_bounds h
                                                    · rw [if_neg c25] at h
                                                      by_cases c26 : b = 95
                                                      · rw [if_pos c26] at h
                                                        exact tokenizeIdentifier_bounds h
                                                      · rw [if_neg c26] at h
                                                        by_cases c27 : isDigitB b = true
                                                        · rw [if_pos c27] at h
                                                          exact tokenizeNumber_bounds h
                                                        · rw [if_neg c27] at h
                                                          exact Except.noConfusion h

theorem twCount_head (p : Nat → Bool) :
    ∀ (l : List Nat) (b : Nat), (l.drop (twCount p l)).head? = some b → p b = false := by
  intro l
  induction l with
  | nil => intro b hb; simp [twCount] at hb
  | cons c t ih =>
      intro b hb
      by_cases hc : p c
      · rw [twCount] at hb
        rw [if_pos hc, List.drop_succ_cons] at hb
        exact ih b hb
      · rw [twCount] at hb
        rw [if_neg hc, List.drop_zero] at hb
        simp only [List.head?_cons, Option.some.injEq] at hb
        subst hb
        exact Bool.eq_false_iff.mpr hc

theorem nextToken_some {exp : List Nat} {pos : Nat} {t : Token} {p' : Nat}
    (h : nextToken exp pos = .ok (some (t, p'))) :
    pos ≤ t.start ∧ p' = t.start + t.len ∧ 1 ≤ t.len ∧
    t.start + t.len ≤ exp.length ∧
    tokenizeSingleToken (exp.drop t.start) = .ok (t.kind, t.len) ∧
    ∃ b, (exp.drop t.start).head? = some b ∧ isWsB b = false := by
  have hdd : (exp.drop pos).drop (twCount isWsB (exp.drop pos))
      = exp.drop (pos + twCount isWsB (exp.drop pos)) := by
    rw [List.drop_drop, Nat.add_comm]
  simp only [nextToken] at h
  split at h
  · exact absurd h (by simp)
  · rename_i hne
    rw [hdd] at h hne
    split at h
    · exact Except.noConfusion h
    · rename_i k n htok
      cases h
      have hbnd := tokenizeSingleToken_bounds htok
      have hlen : (exp.drop (pos + twCount isWsB (exp.drop pos))).length
          = exp.length - (pos + twCount isWsB (exp.drop pos)) := by
        simp
      have hnonempty : exp.drop (pos + twCount isWsB (exp.drop pos)) ≠ [] := by
        intro hcon
        rw [hcon] at hne
        simp at hne
      have hlen1 : 1 ≤ (exp.drop (pos + twCount isWsB (exp.drop pos))).length := by
        cases hx : exp.drop (pos + twCount isWsB (exp.drop pos)) with
        | nil => exact absurd hx hnonempty
        | cons a l => simp
      refine ⟨by simp, by simp, by simp <;> omega, by simp <;> omega, by simpa using htok, ?_⟩
      cases hx : exp.drop (pos + twCount isWsB (exp.drop pos)) with
      | nil => exact absurd hx hnonempty
      | cons a l =>
          refine ⟨a, by simp [hx], ?_⟩
          have := twCount_head isWsB (exp.drop pos) a
          rw [hdd, hx] at this
          exact this (by simp)

theorem nextToken_high {exp : List Nat} {pos : Nat} (h : exp.length ≤ pos) :
    nextToken exp pos = .ok none := by
  have hd : exp.drop pos = [] := List.drop_eq_nil_of_le h
  simp [nextToken, hd, twCount]

/-- Enough fuel makes `tokensFromF` independent of the fuel: the chosen
fuel in `tokens` never truncates the stream. -/
theorem tokensFromF_stable (exp : List Nat) :
    ∀ (fuel pos : Nat), exp.length + 1 - pos ≤ fuel →
    tokensFromF exp fuel pos = tokensFromF exp (fuel + 1) pos := by
  intro fuel
  induction fuel with
  | zero =>
      intro pos hpos
      have hnt := @nextToken_high exp pos (by omega)
      simp [tokensFromF, hnt]
  | succ f ih =>
      intro pos hpos
      rw [tokensFromF, tokensFromF]
      cases hnt : nextToken exp pos with
      | error e => rfl
      | ok o =>
          cases o with
          | none => rfl
          | some tp =>
              obtain ⟨t, p'⟩ := tp
              have hb := nextToken_some hnt
              have hih := ih p' (by omega)
              simp only [hih]

theorem tokensFromF_spec (exp : List Nat) :
    ∀ (fuel pos : Nat),
    ∀ ts : List Token, tokensFromF exp fuel pos = .ok ts →
    (∀ t ∈ ts, pos ≤ t.start ∧ t.start + t.len ≤ exp.length ∧
       tokenizeSingleToken (exp.drop t.start) = .ok (t.kind, t.len) ∧
       (∃ b, (exp.drop t.start).head? = some b ∧ isWsB b = false)) ∧
    ts.Chain' (fun a b => a.start + a.len ≤ b.start) := by
  intro fuel
  induction fuel with
  | zero =>
      intro pos ts h
      rw [tokensFromF] at h
      cases h
      exact ⟨by simp, by simp⟩
  | succ f ih =>
      intro pos ts h
      rw [tokensFromF] at h
      split at h
      · exact Except.noConfusion h
      · cases h
        exact ⟨by simp, by simp⟩
      · rename_i t0 p' hnt
        split at h
        · exact Except.noConfusion h
        · rename_i ts' hrec
          cases h
          have hb := nextToken_some hnt
          obtain ⟨hb1, hb2, hb3, hb4, hb5, hb6⟩ := hb
          have ihr := ih p' ts' hrec
          refine ⟨?_, ?_⟩
          · intro t ht
            rcases List.mem_cons.mp ht with rfl | hmem
            · exact ⟨hb1, hb4, hb5, hb6⟩
            · have := ihr.1 t hmem
              exact ⟨by omega, this.2.1, this.2.2.1, this.2.2.2⟩
          · rw [List.chain'_cons']
            refine ⟨?_, ihr.2⟩
            intro b hhead
            have hmem : b ∈ ts' := List.mem_of_mem_head? hhead
            have := ihr.1 b hmem
            omega

/-! ## Claim theorems -/

/-- C4: the parser applies binary operators strictly left-to-right with
no precedence: `1 + 2 * 3` parses as `(1 + 2) * 3` and evaluates to
`Number(9)`, exactly like the explicitly parenthesised `(1 + 2) * 3`;
after `&&`/`||` the parser recursively parses a whole expression, so in
`false && true || true` everything right of `&&` becomes the right
operand of the `And` node (and the result is `Bool(false)`, not the
`Bool(true)` left-association would give). -/
theorem c4_left_to_right_no_precedence :
    parseBytes (bytes "1 + 2 * 3") = .ok (.mult (.add (.num 1) (.num 2)) (.num 3)) ∧
    parseBytes (bytes "(1 + 2) * 3") = .ok (.mult (.add (.num 1) (.num 2)) (.num 3)) ∧
    (∀ doc : Doc,
      calculate (.mult (.add (.num 1) (.num 2)) (.num 3)) doc = .ok (.number (.finite 9))) ∧
    parseBytes (bytes "10 - 2 - 3") = .ok (.sub (.sub (.num 10) (.num 2)) (.num 3)) ∧
    (∀ doc : Doc,
      calculate (.sub (.sub (.num 10) (.num 2)) (.num 3)) doc = .ok (.number (.finite 5))) ∧
    parseBytes (bytes "false && true || true")
      = .ok (.and (.boolLit false) (.or (.boolLit true) (.boolLit true))) ∧
    (∀ doc : Doc,
      calculate (.and (.boolLit false) (.or (.boolLit true) (.boolLit true))) doc
        = .ok (.bool false)) := by
  refine ⟨rfl, rfl, fun doc => rfl, rfl, fun doc => rfl, rfl, fun doc => rfl⟩

theorem twCount_all {p : Nat → Bool} : ∀ {l : List Nat}, (∀ b ∈ l, p b = true) →
    twCount p l = l.length
  | [], _ => rfl
  | b :: t, h => by
      rw [twCount, if_pos (h b (List.mem_cons_self b t)), twCount_all fun x hx => h x (List.mem_cons_of_mem b hx)]
      rfl

/-- C10: an input with no tokens (empty, or ASCII whitespace only) makes
`Parser::parse_bytes` (and so `Parser::parse`) return the parse error
"no expression results found" rather than an expression. -/
theorem c10_no_tokens_is_parse_error (src : List Nat)
    (h : ∀ b ∈ src, isWsB b = true) :
    parseBytes src = .error (.parseErr "no expression results found") := by
  have hnt : nextToken src 0 = .ok none := by
    have hc : twCount isWsB src = src.length := twCount_all h
    have hd : src.drop (twCount isWsB src) = [] := by
      rw [hc]
      exact List.drop_length src
    simp [nextToken, hd]
  have hf : 4 * src.length + 8 = (4 * src.length + 7) + 1 := rfl
  rw [parseBytes, hf, parseExpression, hnt]

/-- C3: `&&` and `||` always evaluate both operands (no short-circuit):
a left error propagates; a right error propagates even when the left
operand alone (e.g. `false` for `&&`, `true` for `||`) would determine
the result; Bool/Bool yields the conjunction/disjunction; any non-Bool
operand pair yields `UnsupportedTypeComparison` naming both values. -/
theorem c3_logical_both_operands_evaluated :
    (∀ (e1 e2 : Exp) (doc : Doc) (err : EvalError),
       calculate e1 doc = .error err → calculate (.and e1 e2) doc = .error err) ∧
    (∀ (e1 e2 : Exp) (doc : Doc) (v : Value) (err : EvalError),
       calculate e1 doc = .ok v → calculate e2 doc = .error err →
       calculate (.and e1 e2) doc = .error err) ∧
    (∀ (e1 e2 : Exp) (doc : Doc) (err : EvalError),
       calculate e1 doc = .error err → calculate (.or e1 e2) doc = .error err) ∧
    (∀ (e1 e2 : Exp) (doc : Doc) (v : Value) (err : EvalError),
       calculate e1 doc = .ok v → calculate e2 doc = .error err →
       calculate (.or e1 e2) doc = .error err) ∧
    (∀ (e1 e2 : Exp) (doc : Doc) (b1 b2 : Bool),
       calculate e1 doc = .ok (.bool b1) → calculate e2 doc = .ok (.bool b2) →
       calculate (.and e1 e2) doc = .ok (.bool (b1 && b2))) ∧
    (∀ (e1 e2 : Exp) (doc : Doc) (b1 b2 : Bool),
       calculate e1 doc = .ok (.bool b1) → calculate e2 doc = .ok (.bool b2) →
       calculate (.or e1 e2) doc = .ok (.bool (b1 || b2))) ∧
    (∀ (e1 e2 : Exp) (doc : Doc) (v1 v2 : Value),
       calculate e1 doc = .ok v1 → calculate e2 doc = .ok v2 →
       (v1.isBool && v2.isBool) = false →
       calculate (.and e1 e2) doc = .error (.unsupportedTypeComparison [v1, v2])) ∧
    (∀ (e1 e2 : Exp) (doc : Doc) (v1 v2 : Value),
       calculate e1 doc = .ok v1 → calculate e2 doc = .ok v2 →
       (v1.isBool && v2.isBool) = false →
       calculate (.or e1 e2) doc = .error (.unsupportedTypeComparison [v1, v2])) := by
  refine ⟨?_, ?_, ?_, ?_, ?_, ?_, ?_, ?_⟩
  · intro e1 e2 doc err h1
    simp only [calculate, h1]
    rfl
  · intro e1 e2 doc v err h1 h2
    simp only [calculate, h1, h2]
    rfl
  · intro e1 e2 doc err h1
    simp only [calculate, h1]
    rfl
  · intro e1 e2 doc v err h1 h2
    simp only [calculate, h1, h2]
    rfl
  · intro e1 e2 doc b1 b2 h1 h2
    simp only [calculate, h1, h2]
    rfl
  · intro e1 e2 doc b1 b2 h1 h2
    simp only [calculate, h1, h2]
    rfl
  · intro e1 e2 doc v1 v2 h1 h2 hb
    simp only [calculate, h1, h2]
    cases v1 <;> cases v2 <;> simp_all [Value.isBool] <;> rfl
  · intro e1 e2 doc v1 v2 h1 h2 hb
    simp only [calculate, h1, h2]
    cases v1 <;> cases v2 <;> simp_all [Value.isBool] <;> rfl

set_option maxHeartbeats 1000000 in
/-- C5: `+` propagates a single Null operand for Number/String (the
non-null operand is returned unchanged), adds numbers (IEEE sum,
modelled exactly) and concatenates strings; `-`, `*`, `/` accept only
Number/Number — any other pair, Null included, is an
`UnsupportedTypeComparison` error. -/
theorem c5_add_null_propagation :
    (∀ (e1 e2 : Exp) (doc : Doc) (n : FNum),
       calculate e1 doc = .ok (.number n) → calculate e2 doc = .ok .null →
       calculate (.add e1 e2) doc = .ok (.number n)) ∧
    (∀ (e1 e2 : Exp) (doc : Doc) (n : FNum),
       calculate e1 doc = .ok .null → calculate e2 doc = .ok (.number n) →
       calculate (.add e1 e2) doc = .ok (.number n)) ∧
    (∀ (e1 e2 : Exp) (doc : Doc) (s : List Nat),
       calculate e1 doc = .ok (.string s) → calculate e2 doc = .ok .null →
       calculate (.add e1 e2) doc = .ok (.string s)) ∧
    (∀ (e1 e2 : Exp) (doc : Doc) (s : List Nat),
       calculate e1 doc = .ok .null → calculate e2 doc = .ok (.string s) →
       calculate (.add e1 e2) doc = .ok (.string s)) ∧
    (∀ (e1 e2 : Exp) (doc : Doc) (n m : FNum),
       calculate e1 doc = .ok (.number n) → calculate e2 doc = .ok (.number m) →
       calculate (.add e1 e2) doc = .ok (.number (FNum.fadd n m))) ∧
    (∀ (e1 e2 : Exp) (doc : Doc) (s t : List Nat),
       calculate e1 doc = .ok (.string s) → calculate e2 doc = .ok (.string t) →
       calculate (.add e1 e2) doc = .ok (.string (s ++ t))) ∧
    (∀ (e1 e2 : Exp) (doc : Doc) (v w : Value),
       calculate e1 doc = .ok v → calculate e2 doc = .ok w →
       (v.isNumber && w.isNumber) = false →
       calculate (.sub e1 e2) doc = .error (.unsupportedTypeComparison [v, w])) ∧
    (∀ (e1 e2 : Exp) (doc : Doc) (v w : Value),
       calculate e1 doc = .ok v → calculate e2 doc = .ok w →
       (v.isNumber && w.isNumber) = false →
       calculate (.mult e1 e2) doc = .error (.unsupportedTypeComparison [v, w])) ∧
    (∀ (e1 e2 : Exp) (doc : Doc) (v w : Value),
       calculate e1 doc = .ok v → calculate e2 doc = .ok w →
       (v.isNumber && w.isNumber) = false →
       calculate (.div e1 e2) doc = .error (.unsupportedTypeComparison [v, w])) := by
  refine ⟨?_, ?_, ?_, ?_, ?_, ?_, ?_, ?_, ?_⟩
  · intro e1 e2 doc n h1 h2
    simp only [calculate, h1, h2]
    rfl
  · intro e1 e2 doc n h1 h2
    simp only [calculate, h1, h2]
    rfl
  · intro e1 e2 doc s h1 h2
    simp only [calculate, h1, h2]
    rfl
  · intro e1 e2 doc s h1 h2
    simp only [calculate, h1, h2]
    rfl
  · intro e1 e2 doc n m h1 h2
    simp only [calculate, h1, h2]
    rfl
  · intro e1 e2 doc s t h1 h2
    simp only [calculate, h1, h2]
    rfl
  · intro e1 e2 doc v w h1 h2 hb
    simp only [calculate, h1, h2]
    cases v <;> cases w <;> simp_all [Value.isNumber] <;> rfl
  · intro e1 e2 doc v w h1 h2 hb
    simp only [calculate, h1, h2]
    cases v <;> cases w <;> simp_all [Value.isNumber] <;> rfl
  · intro e1 e2 doc v w h1 h2 hb
    simp only [calculate, h1, h2]
    cases v <;> cases w <;> simp_all [Value.isNumber] <;> rfl

/-- C7: for every value and array, `v IN arr` and `arr CONTAINS v`
evaluate to the same Bool — membership by structural (`PartialEq`)
equality; `IN` with a non-Array right operand is an error. -/
theorem c7_in_iff_contains :
    (∀ (e1 e2 : Exp) (doc : Doc) (v : Value) (a : List Value),
       calculate e1 doc = .ok v → calculate e2 doc = .ok (.array a) →
       calculate (.isIn e1 e2) doc = .ok (.bool (vcontains a v)) ∧
       calculate (.contains e2 e1) doc = .ok (.bool (vcontains a v))) ∧
    (∀ (e1 e2 : Exp) (doc : Doc) (v w : Value),
       calculate e1 doc = .ok v → calculate e2 doc = .ok w →
       w.isArray = false →
       calculate (.isIn e1 e2) doc = .error (.unsupportedTypeComparison [v, w])) := by
  constructor
  · intro e1 e2 doc v a h1 h2
    constructor
    · simp only [calculate, h1, h2]
      cases v <;> rfl
    · simp only [calculate, h1, h2]
      rfl
  · intro e1 e2 doc v w h1 h2 hw
    simp only [calculate, h1, h2]
    cases v <;> cases w <;> simp_all [Value.isArray] <;> rfl

set_option maxHeartbeats 1600000 in
/-- C2: `value BETWEEN lo hi` — for three Strings, three Numbers, or
three DateTimes the result is the strict interval test
`lo < value && value < hi`; any Null among the three evaluated operands
gives `Bool(false)` (not an error); every other type combination is an
`UnsupportedTypeComparison` error naming the three values. -/
theorem c2_between_strict_interval_null_false :
    (∀ (el er ev : Exp) (doc : Doc) (lo hi v : List Nat),
       calculate el doc = .ok (.string lo) → calculate er doc = .ok (.string hi) →
       calculate ev doc = .ok (.string v) →
       calculate (.between el er ev) doc = .ok (.bool (bytesLt lo v && bytesLt v hi))) ∧
    (∀ (el er ev : Exp) (doc : Doc) (lo hi v : FNum),
       calculate el doc = .ok (.number lo) → calculate er doc = .ok (.number hi) →
       calculate ev doc = .ok (.number v) →
       calculate (.between el er ev) doc = .ok (.bool (FNum.flt lo v && FNum.flt v hi))) ∧
    (∀ (el er ev : Exp) (doc : Doc) (lo hi v : List Nat),
       calculate el doc = .ok (.datetime lo) → calculate er doc = .ok (.datetime hi) →
       calculate ev doc = .ok (.datetime v) →
       calculate (.between el er ev) doc = .ok (.bool (bytesLt lo v && bytesLt v hi))) ∧
    (∀ (el er ev : Exp) (doc : Doc) (lv rv vv : Value),
       calculate el doc = .ok lv → calculate er doc = .ok rv → calculate ev doc = .ok vv →
       (vv = .null ∨ lv = .null ∨ rv = .null) →
       calculate (.between el er ev) doc = .ok (.bool false)) ∧
    (∀ (el er ev : Exp) (doc : Doc) (lv rv vv : Value),
       calculate el doc = .ok lv → calculate er doc = .ok rv → calculate ev doc = .ok vv →
       (vv.isString && lv.isString && rv.isString) = false →
       (vv.isNumber && lv.isNumber && rv.isNumber) = false →
       (vv.isDateTime && lv.isDateTime && rv.isDateTime) = false →
       (vv.isNull || lv.isNull || rv.isNull) = false →
       calculate (.between el er ev) doc = .error (.unsupportedTypeComparison [vv, lv, rv])) := by
  refine ⟨?_, ?_, ?_, ?_, ?_⟩
  · intro el er ev doc lo hi v h1 h2 h3
    simp only [calculate, h1, h2, h3]
    rfl
  · intro el er ev doc lo hi v h1 h2 h3
    simp only [calculate, h1, h2, h3]
    rfl
  · intro el er ev doc lo hi v h1 h2 h3
    simp only [calculate, h1, h2, h3]
    rfl
  · intro el er ev doc lv rv vv h1 h2 h3 hn
    simp only [calculate, h1, h2, h3]
    rcases hn with rfl | rfl | rfl
    · cases lv <;> cases rv <;> rfl
    · cases vv <;> cases rv <;> rfl
    · cases vv <;> cases lv <;> rfl
  · intro el er ev doc lv rv vv h1 h2 h3 hs hnum hd hnull
    simp only [calculate, h1, h2, h3]
    cases vv <;> cases lv <;> cases rv <;>
      simp_all [Value.isString, Value.isNumber, Value.isDateTime, Value.isNull] <;> rfl

/-- C8 (amended): `COERCE <literal> _datetime_` — for a QuotedString or
NULL literal the parser folds the coercion into a `CoercedConst` that
evaluates, on every document, to exactly what the runtime
COERCE-datetime node yields (DateTime on a successfully parsed date
string, Null on a failed parse or NULL); for a Number, `true` or
`false` literal the parse-time evaluation errors with
`UnsupportedCOERCE` — the same error the runtime node would return on
every document — so parsing fails instead of producing a tree. -/
theorem c8_constant_folding :
    (∀ (s : List Nat) (doc : Doc),
       calculate (.coerceDateTime (.str s)) doc
         = .ok (match parseUTC s with | none => Value.null | some d => Value.datetime d) ∧
       calculate (.coercedConst (match parseUTC s with
         | none => Value.null | some d => Value.datetime d)) doc
         = calculate (.coerceDateTime (.str s)) doc) ∧
    (∀ doc : Doc,
       calculate (.coerceDateTime .nullLit) doc = .ok .null ∧
       calculate (.coercedConst .null) doc = .ok .null) ∧
    parseBytes (bytes "COERCE '2020-01-02T03:04:05Z' _datetime_")
      = .ok (.coercedConst (.datetime (bytes "2020-01-02T03:04:05Z"))) ∧
    parseBytes (bytes "COERCE 'nope' _datetime_") = .ok (.coercedConst .null) ∧
    parseBytes (bytes "COERCE NULL _datetime_") = .ok (.coercedConst .null) ∧
    parseBytes (bytes "COERCE 1 _datetime_")
      = .error (.evalErr (.unsupportedCOERCE [.number (.finite 1)])) ∧
    parseBytes (bytes "COERCE true _datetime_")
      = .error (.evalErr (.unsupportedCOERCE [.bool true])) ∧
    parseBytes (bytes "COERCE false _datetime_")
      = .error (.evalErr (.unsupportedCOERCE [.bool false])) ∧
    (∀ (doc : Doc) (q : Frac),
       calculate (.coerceDateTime (.num q)) doc
         = .error (.unsupportedCOERCE [.number (.finite q)])) ∧
    (∀ (doc : Doc) (b : Bool),
       calculate (.coerceDateTime (.boolLit b)) doc
         = .error (.unsupportedCOERCE [.bool b])) := by
  refine ⟨?_, fun doc => ⟨rfl, rfl⟩, rfl, rfl, rfl, rfl, rfl, rfl, fun doc q => rfl,
    fun doc b => rfl⟩
  intro s doc
  have h0 : calculate (.coerceDateTime (.str s)) doc
      = (match parseUTC s with
         | none => .ok Value.null
         | some d => .ok (Value.datetime d)) := rfl
  have h1 : calculate (.coercedConst (match parseUTC s with
      | none => Value.null | some d => Value.datetime d)) doc
      = .ok (match parseUTC s with
         | none => Value.null | some d => Value.datetime d) := rfl
  rw [h0, h1]
  cases parseUTC s <;> exact ⟨rfl, rfl⟩

theorem isWsB_cases {w : Nat} (h : isWsB w = true) :
    w = 9 ∨ w = 10 ∨ w = 12 ∨ w = 13 ∨ w = 32 := by
  simp [isWsB] at h
  omega

theorem twCount_front {p : Nat → Bool} :
    ∀ (l1 : List Nat) (x : Nat) (l2 : List Nat), (∀ b ∈ l1, p b = true) → p x = false →
    twCount p (l1 ++ x :: l2) = l1.length
  | [], x, l2, _, hx => by simp [twCount, hx]
  | b :: t, x, l2, h, hx => by
      rw [List.cons_append, twCount, if_pos (h b (List.mem_cons_self b t)),
        twCount_front t x l2 (fun y hy => h y (List.mem_cons_of_mem b hy)) hx]
      rfl

theorem tokenizeKeyword_ws (kw rest : List Nat) (w : Nat) (kind : TokenKind)
    (hkw : ∀ b ∈ kw, isWsB b = false) (hne : kw ≠ []) (hw : isWsB w = true) :
    tokenizeKeyword (kw ++ w :: rest) kw kind = .ok (kind, kw.length) := by
  have hcount : twCount (fun c => !isWsB c) (kw ++ w :: rest) = kw.length :=
    twCount_front kw w rest (fun b hb => by rw [hkw b hb]; rfl) (by rw [hw]; rfl)
  have h1 : twOpt (fun c => !isWsB c) (kw ++ w :: rest) = some kw.length := by
    unfold twOpt
    rw [hcount]
    exact if_neg (fun h0 => hne (List.length_eq_zero.mp h0))
  simp only [tokenizeKeyword, h1]
  rw [if_pos]
  constructor
  · simp only [List.length_append, List.length_cons]
    omega
  · exact List.take_left kw (w :: rest)

set_option maxHeartbeats 1600000 in
/-- C1 (amended): an uppercase keyword lexes to its token exactly when
it is followed by ASCII whitespace (at least one byte must follow the
keyword); a keyword followed directly by `)`, `]`, `,` or by end of
input is an `InvalidKeyword` lex error, not a token, as is a keyword
prefix continued by other bytes (`ORx`).  The literals `true`, `false`
and `NULL` terminate at any non-alphabetic byte, so they lex fine
before `)`, `]`, `,` and at end of input; a continued literal prefix
(`truex`) is a lex error. -/
theorem c1_keyword_termination :
    (∀ (rest : List Nat) (w : Nat), isWsB w = true →
       tokenizeSingleToken (bytes "OR" ++ w :: rest) = .ok (.or, 2) ∧
       tokenizeSingleToken (bytes "IN" ++ w :: rest) = .ok (.inKw, 2) ∧
       tokenizeSingleToken (bytes "STARTS_WITH" ++ w :: rest) = .ok (.startsWith, 11) ∧
       tokenizeSingleToken (bytes "ENDS_WITH" ++ w :: rest) = .ok (.endsWith, 9) ∧
       tokenizeSingleToken (bytes "BETWEEN" ++ w :: rest) = .ok (.between, 7) ∧
       tokenizeSingleToken (bytes "CONTAINS" ++ w :: rest) = .ok (.contains, 8) ∧
       tokenizeSingleToken (bytes "CONTAINS_ANY" ++ w :: rest) = .ok (.containsAny, 12) ∧
       tokenizeSingleToken (bytes "CONTAINS_ALL" ++ w :: rest) = .ok (.containsAll, 12) ∧
       tokenizeSingleToken (bytes "COERCE" ++ w :: rest) = .ok (.coerce, 6) ∧
       tokenizeSingleToken (bytes "true" ++ w :: rest) = .ok (.booleanTrue, 4) ∧
       tokenizeSingleToken (bytes "false" ++ w :: rest) = .ok (.booleanFalse, 5) ∧
       tokenizeSingleToken (bytes "NULL" ++ w :: rest) = .ok (.null, 4)) ∧
    tokenizeSingleToken (bytes "OR") = .error (.invalidKeyword (bytes "OR")) ∧
    tokenizeSingleToken (bytes "OR)") = .error (.invalidKeyword (bytes "OR)")) ∧
    tokenizeSingleToken (bytes "IN]") = .error (.invalidKeyword (bytes "IN]")) ∧
    tokenizeSingleToken (bytes "BETWEEN,") = .error (.invalidKeyword (bytes "BETWEEN,")) ∧
    tokenizeSingleToken (bytes "COERCE") = .error (.invalidKeyword (bytes "COERCE")) ∧
    tokenizeSingleToken (bytes "ORx") = .error (.invalidKeyword (bytes "ORx")) ∧
    tokenizeSingleToken (bytes "true") = .ok (.booleanTrue, 4) ∧
    tokenizeSingleToken (bytes "true)") = .ok (.booleanTrue, 4) ∧
    tokenizeSingleToken (bytes "false,") = .ok (.booleanFalse, 5) ∧
    tokenizeSingleToken (bytes "NULL]") = .ok (.null, 4) ∧
    tokenizeSingleToken (bytes "NULL") = .ok (.null, 4) ∧
    tokenizeSingleToken (bytes "truex") = .error (.invalidBool (bytes "truex")) := by
  refine ⟨?_, rfl, rfl, rfl, rfl, rfl, rfl, rfl, rfl, rfl, rfl, rfl, rfl⟩
  intro rest w hw
  refine ⟨tokenizeKeyword_ws (bytes "OR") rest w TokenKind.or (by decide) (by decide) hw,
    tokenizeKeyword_ws (bytes "IN") rest w TokenKind.inKw (by decide) (by decide) hw,
    tokenizeKeyword_ws (bytes "STARTS_WITH") rest w TokenKind.startsWith
      (by decide) (by decide) hw,
    tokenizeKeyword_ws (bytes "ENDS_WITH") rest w TokenKind.endsWith
      (by decide) (by decide) hw,
    tokenizeKeyword_ws (bytes "BETWEEN") rest w TokenKind.between (by decide) (by decide) hw,
    ?_, ?_, ?_, ?_, ?_, ?_, ?_⟩ <;>
    rcases isWsB_cases hw with rfl | rfl | rfl | rfl | rfl <;>
      first
      | rfl
      | exact tokenizeKeyword_ws (bytes "CONTAINS") rest _ TokenKind.contains
          (by decide) (by decide) (by decide)
      | exact tokenizeKeyword_ws (bytes "CONTAINS_ANY") rest _ TokenKind.containsAny
          (by decide) (by decide) (by decide)
      | exact tokenizeKeyword_ws (bytes "CONTAINS_ALL") rest _ TokenKind.containsAll
          (by decide) (by decide) (by decide)
      | exact tokenizeKeyword_ws (bytes "COERCE") rest _ TokenKind.coerce
          (by decide) (by decide) (by decide)

theorem Frac.eqb_refl (a : Frac) : Frac.eqb a a = true := by
  simp [Frac.eqb]

theorem Frac.eqb_symm (a b : Frac) : Frac.eqb a b = Frac.eqb b a := by
  unfold Frac.eqb
  exact decide_eq_decide.mpr ⟨Eq.symm, Eq.symm⟩

theorem Frac.eqb_trans (a b c : Frac) (h1 : Frac.eqb a b = true) (h2 : Frac.eqb b c = true) :
    Frac.eqb a c = true := by
  unfold Frac.eqb at h1 h2 ⊢
  rw [decide_eq_true_eq] at h1 h2 ⊢
  have hbd : (b.den : Int) ≠ 0 := by
    have := b.den_pos
    omega
  apply mul_right_cancel₀ hbd
  calc a.num * (c.den : Int) * (b.den : Int)
      = a.num * (b.den : Int) * (c.den : Int) := by ring
    _ = b.num * (a.den : Int) * (c.den : Int) := by rw [h1]
    _ = b.num * (c.den : Int) * (a.den : Int) := by ring
    _ = c.num * (b.den : Int) * (a.den : Int) := by rw [h2]
    _ = c.num * (a.den : Int) * (b.den : Int) := by ring

theorem FNum.feq_refl (n : FNum) (h : n ≠ FNum.nan) : FNum.feq n n = true := by
  cases n <;> simp_all [FNum.feq, Frac.eqb_refl]

theorem FNum.feq_symm (a b : FNum) : FNum.feq a b = FNum.feq b a := by
  cases a <;> cases b <;> simp [FNum.feq, Frac.eqb_symm]

theorem FNum.feq_trans (a b c : FNum) (h1 : FNum.feq a b = true) (h2 : FNum.feq b c = true) :
    FNum.feq a c = true := by
  cases a <;> cases b <;> cases c <;> simp_all [FNum.feq]
  exact Frac.eqb_trans _ _ _ h1 h2

mutual

theorem veq_symm : ∀ a b, veq a b = veq b a
  | .null, b => by cases b <;> rfl
  | .string s, b => by
      cases b <;> try rfl
      unfold veq
      exact decide_eq_decide.mpr ⟨Eq.symm, Eq.symm⟩
  | .number n, b => by
      cases b <;> try rfl
      unfold veq
      exact FNum.feq_symm n _
  | .bool x, b => by
      cases b <;> try rfl
      unfold veq
      exact decide_eq_decide.mpr ⟨Eq.symm, Eq.symm⟩
  | .datetime d, b => by
      cases b <;> try rfl
      unfold veq
      exact decide_eq_decide.mpr ⟨Eq.symm, Eq.symm⟩
  | .object o, b => by
      cases b <;> try rfl
      unfold veq
      exact veqO_symm o _
  | .array a, b => by
      cases b <;> try rfl
      unfold veq
      exact veqL_symm a _

theorem veqL_symm : ∀ a b, veqL a b = veqL b a
  | [], b => by cases b <;> rfl
  | v :: t, b => by
      cases b with
      | nil => rfl
      | cons v' t' =>
          unfold veqL
          rw [veq_symm v v', veqL_symm t t']

theorem veqO_symm : ∀ a b, veqO a b = veqO b a
  | [], b => by cases b <;> rfl
  | (k, v) :: t, b => by
      cases b with
      | nil => rfl
      | cons kv' t' =>
          obtain ⟨k', v'⟩ := kv'
          unfold veqO
          rw [veq_symm v v', veqO_symm t t', decide_eq_decide.mpr ⟨Eq.symm, Eq.symm⟩]

end

mutual

theorem veq_trans : ∀ a b c, veq a b = true → veq b c = true → veq a c = true
  | .null, b, c => by intro h1 h2; cases b <;> cases c <;> simp_all [veq]
  | .string s, b, c => by intro h1 h2; cases b <;> cases c <;> simp_all [veq]
  | .number n, b, c => by
      intro h1 h2
      cases b <;> cases c <;> simp_all [veq]
      exact FNum.feq_trans _ _ _ h1 h2
  | .bool x, b, c => by intro h1 h2; cases b <;> cases c <;> simp_all [veq]
  | .datetime d, b, c => by intro h1 h2; cases b <;> cases c <;> simp_all [veq]
  | .object o, b, c => by
      intro h1 h2
      cases b <;> cases c <;> simp_all [veq]
      exact veqO_trans o _ _ h1 h2
  | .array a, b, c => by
      intro h1 h2
      cases b <;> cases c <;> simp_all [veq]
      exact veqL_trans a _ _ h1 h2

theorem veqL_trans : ∀ a b c, veqL a b = true → veqL b c = true → veqL a c = true
  | [], b, c => by cases b <;> cases c <;> simp_all [veqL]
  | v :: t, b, c => by
      cases b with
      | nil => intro h; exact absurd h (by simp [veqL])
      | cons v' t' =>
          cases c with
          | nil => intro _ h; exact absurd h (by simp [veqL])
          | cons v'' t'' =>
              intro h1 h2
              simp only [veqL, Bool.and_eq_true] at h1 h2 ⊢
              exact ⟨veq_trans v v' v'' h1.1 h2.1, veqL_trans t t' t'' h1.2 h2.2⟩

theorem veqO_trans : ∀ a b c, veqO a b = true → veqO b c = true → veqO a c = true
  | [], b, c => by cases b <;> cases c <;> simp_all [veqO]
  | (k, v) :: t, b, c => by
      cases b with
      | nil => intro h; exact absurd h (by simp [veqO])
      | cons kv' t' =>
          obtain ⟨k', v'⟩ := kv'
          cases c with
          | nil => intro _ h; exact absurd h (by simp [veqO])
          | cons kv'' t'' =>
              obtain ⟨k'', v''⟩ := kv''
              intro h1 h2
              simp only [veqO, Bool.and_eq_true, decide_eq_true_eq] at h1 h2 ⊢
              exact ⟨⟨h1.1.1.trans h2.1.1, veq_trans v v' v'' h1.1.2 h2.1.2⟩,
                veqO_trans t t' t'' h1.2 h2.2⟩

end

mutual

theorem veq_refl : ∀ a, nanFree a = true → veq a a = true
  | .null, _ => rfl
  | .string s, _ => by simp [veq]
  | .number n, h => by
      cases n <;> simp_all [veq, nanFree, FNum.feq, Frac.eqb_refl]
  | .bool x, _ => by simp [veq]
  | .datetime d, _ => by simp [veq]
  | .object o, h => veqO_refl o h
  | .array a, h => veqL_refl a h

theorem veqL_refl : ∀ a, nanFreeL a = true → veqL a a = true
  | [], _ => rfl
  | v :: t, h => by
      simp only [nanFreeL, Bool.and_eq_true] at h
      simp only [veqL, Bool.and_eq_true]
      exact ⟨veq_refl v h.1, veqL_refl t h.2⟩

theorem veqO_refl : ∀ a, nanFreeO a = true → veqO a a = true
  | [], _ => rfl
  | (k, v) :: t, h => by
      simp only [nanFreeO, Bool.and_eq_true] at h
      simp only [veqO, Bool.and_eq_true, decide_eq_true_eq]
      exact ⟨⟨trivial, veq_refl v h.1⟩, veqO_refl t h.2⟩

end

theorem veq_tag_ne : ∀ a b, vtag a ≠ vtag b → veq a b = false := by
  intro a b h
  cases a <;> cases b <;> first | rfl | exact absurd rfl h

theorem bytesLt_irrefl : ∀ a, bytesLt a a = false
  | [] => rfl
  | x :: xs => by
      simp only [bytesLt]
      rw [if_neg (by omega), if_neg (by omega)]
      exact bytesLt_irrefl xs

theorem bytesLt_asymm : ∀ a b, bytesLt a b = true → bytesLt b a = false
  | [], [], h => by simp [bytesLt] at h
  | [], _ :: _, _ => rfl
  | _ :: _, [], h => by simp [bytesLt] at h
  | x :: xs, y :: ys, h => by
      simp only [bytesLt] at h ⊢
      rcases Nat.lt_trichotomy x y with hxy | hxy | hxy
      · rw [if_neg (by omega), if_pos hxy]
      · subst hxy
        rw [if_neg (by omega), if_neg (by omega)] at h ⊢
        exact bytesLt_asymm xs ys h
      · rw [if_neg (by omega), if_pos hxy] at h
        exact absurd h (by simp)

theorem bytesLt_trans : ∀ a b c, bytesLt a b = true → bytesLt b c = true → bytesLt a c = true
  | [], b, c, h1, h2 => by
      cases b with
      | nil => simp [bytesLt] at h1
      | cons y ys =>
          cases c with
          | nil => simp [bytesLt] at h2
          | cons z zs => rfl
  | _ :: _, [], _, h1, _ => by simp [bytesLt] at h1
  | _ :: _, _ :: _, [], _, h2 => by simp [bytesLt] at h2
  | x :: xs, y :: ys, z :: zs, h1, h2 => by
      simp only [bytesLt] at h1 h2 ⊢
      rcases Nat.lt_trichotomy x y with hxy | hxy | hxy
      · rcases Nat.lt_trichotomy y z with hyz | hyz | hyz
        · rw [if_pos (by omega)]
        · subst hyz
          rw [if_pos (by omega)]
        · rw [if_neg (by omega), if_pos hyz] at h2
          exact absurd h2 (by simp)
      · subst hxy
        rcases Nat.lt_trichotomy x z with hyz | hyz | hyz
        · rw [if_pos hyz]
        · subst hyz
          rw [if_neg (by omega), if_neg (by omega)] at h1 h2 ⊢
          exact bytesLt_trans xs ys zs h1 h2
        · rw [if_neg (by omega), if_pos hyz] at h2
          exact absurd h2 (by simp)
      · rw [if_neg (by omega), if_pos hxy] at h1
        exact absurd h1 (by simp)

theorem bytesLt_conn : ∀ a b, bytesLt a b = false → bytesLt b a = false → a = b
  | [], [], _, _ => rfl
  | [], _ :: _, h1, _ => by simp [bytesLt] at h1
  | _ :: _, [], _, h2 => by simp [bytesLt] at h2
  | x :: xs, y :: ys, h1, h2 => by
      simp only [bytesLt] at h1 h2
      rcases Nat.lt_trichotomy x y with hxy | hxy | hxy
      · rw [if_pos hxy] at h1
        exact absurd h1 (by simp)
      · subst hxy
        rw [if_neg (by omega), if_neg (by omega)] at h1 h2
        rw [bytesLt_conn xs ys h1 h2]
      · rw [if_pos hxy] at h2
        exact absurd h2 (by simp)

theorem objInsert_comm :
    ∀ (m : List (List Nat × Value)) (k1 k2 : List Nat) (v1 v2 : Value), k1 ≠ k2 →
    objInsert k1 v1 (objInsert k2 v2 m) = objInsert k2 v2 (objInsert k1 v1 m)
  | [], k1, k2, v1, v2, hne => by
      by_cases h12 : bytesLt k1 k2 = true
      · have h21 := bytesLt_asymm _ _ h12
        simp [objInsert, h12, h21, hne, Ne.symm hne]
      · have h12f : bytesLt k1 k2 = false := by simpa using h12
        have h21 : bytesLt k2 k1 = true := by
          by_contra hcon
          exact hne (bytesLt_conn _ _ h12f (by simpa using hcon))
        simp [objInsert, h12f, h21, hne, Ne.symm hne]
  | (k', v') :: t, k1, k2, v1, v2, hne => by
      by_cases ht1 : bytesLt k1 k' = true
      · by_cases ht2 : bytesLt k2 k' = true
        · by_cases h12 : bytesLt k1 k2 = true
          · have h21 := bytesLt_asymm _ _ h12
            simp [objInsert, ht1, ht2, h12, h21, hne, Ne.symm hne]
          · have h12f : bytesLt k1 k2 = false := by simpa using h12
            have h21 : bytesLt k2 k1 = true := by
              by_contra hcon
              exact hne (bytesLt_conn _ _ h12f (by simpa using hcon))
            simp [objInsert, ht1, ht2, h12f, h21, hne, Ne.symm hne]
        · by_cases he2 : k2 = k'
          · subst he2
            have h21 : bytesLt k2 k1 = false := bytesLt_asymm _ _ ht1
            simp [objInsert, ht1, ht2, h21, hne, Ne.symm hne, bytesLt_irrefl]
          · have ht2f : bytesLt k2 k' = false := by simpa using ht2
            have hk2 : bytesLt k' k2 = true := by
              by_contra hcon
              exact he2 (bytesLt_conn _ _ ht2f (by simpa using hcon))
            have h12 : bytesLt k1 k2 = true := bytesLt_trans _ _ _ ht1 hk2
            have h21 := bytesLt_asymm _ _ h12
            simp [objInsert, ht1, ht2f, he2, h21, hne, Ne.symm hne]
      · by_cases he1 : k1 = k'
        · subst he1
          by_cases ht2 : bytesLt k2 k1 = true
          · have h12 : bytesLt k1 k2 = false := bytesLt_asymm _ _ ht2
            simp [objInsert, ht2, h12, hne, Ne.symm hne, bytesLt_irrefl]
          · have ht2f : bytesLt k2 k1 = false := by simpa using ht2
            simp [objInsert, ht2f, hne, Ne.symm hne, bytesLt_irrefl]
        · have ht1f : bytesLt k1 k' = false := by simpa using ht1
          have hk1 : bytesLt k' k1 = true := by
            by_contra hcon
            exact he1 (bytesLt_conn _ _ ht1f (by simpa using hcon))
          by_cases ht2 : bytesLt k2 k' = true
          · have h21 : bytesLt k2 k1 = true := bytesLt_trans _ _ _ ht2 hk1
            have h12 := bytesLt_asymm _ _ h21
            simp [objInsert, ht1f, he1, ht2, h12, h21, hne, Ne.symm hne]
          · by_cases he2 : k2 = k'
            · subst he2
              have h12 : bytesLt k1 k2 = false := bytesLt_asymm _ _ hk1
              simp [objInsert, h12, ht1f, hne, Ne.symm hne, bytesLt_irrefl]
            · have ht2f : bytesLt k2 k' = false := by simpa using ht2
              simp only [objInsert, ht1f, ht2f, he1, he2, if_false, reduceIte]
              rw [objInsert_comm t k1 k2 v1 v2 hne]
              simp

/-- C6 (amended): Value equality — the relation behind `==`/`=` — is
structural, symmetric and transitive; it is reflexive for every Value
containing no NaN number (NaN breaks reflexivity, see the
counterexample); cross-variant comparisons are false, `Null == Null` is
true; `Array` compares element-wise in order; `Object` compares entry
by entry of the key-sorted map, and map insertion commutes on distinct
keys, so an Object's comparison never depends on insertion order. -/
theorem c6_value_equality_laws :
    (∀ a b, veq a b = veq b a) ∧
    (∀ a b c, veq a b = true → veq b c = true → veq a c = true) ∧
    (∀ a, nanFree a = true → veq a a = true) ∧
    veq .null .null = true ∧
    (∀ a b, vtag a ≠ vtag b → veq a b = false) ∧
    (∀ x y xs ys, veq (.array (x :: xs)) (.array (y :: ys)) = (veq x y && veqL xs ys)) ∧
    (∀ o1 o2, veq (.object o1) (.object o2) = veqO o1 o2) ∧
    (∀ m k1 k2 v1 v2, k1 ≠ k2 →
       objInsert k1 v1 (objInsert k2 v2 m) = objInsert k2 v2 (objInsert k1 v1 m)) ∧
    (∀ (e1 e2 : Exp) (doc : Doc) (v1 v2 : Value),
       calculate e1 doc = .ok v1 → calculate e2 doc = .ok v2 →
       calculate (.eq e1 e2) doc = .ok (.bool (veq v1 v2))) :=
  ⟨veq_symm, veq_trans, veq_refl, rfl, veq_tag_ne, fun _ _ _ _ => rfl, fun _ _ => rfl,
    fun m k1 k2 v1 v2 h => objInsert_comm m k1 k2 v1 v2 h,
    fun e1 e2 doc v1 v2 h1 h2 => by
      simp only [calculate, h1, h2]
      rfl⟩

/-- C6 counterexample: Value equality is not reflexive — `Number(NaN)`
is unequal to itself (`f64` partial equality), and this is observable
through the `==` operator: `(0 / 0) == (0 / 0)` parses, and evaluates to
`Bool(false)`. -/
theorem c6_nan_breaks_reflexivity :
    veq (.number .nan) (.number .nan) = false ∧
    parseBytes (bytes "(0 / 0) == (0 / 0)")
      = .ok (.eq (.div (.num 0) (.num 0)) (.div (.num 0) (.num 0))) ∧
    calculate (.eq (.div (.num 0) (.num 0)) (.div (.num 0) (.num 0))) emptyDoc
      = .ok (.bool false) :=
  ⟨rfl, rfl, rfl⟩

/-- C1 counterexample: by the claim, the keyword `OR` followed by EOF or
by the end marker `)` should lex to the `Or` token; the tokenizer
instead reports an `InvalidKeyword` lex error on both inputs. -/
theorem c1_keyword_eof_is_error :
    tokens (bytes "OR") = .error (.invalidKeyword (bytes "OR")) ∧
    tokens (bytes "OR)") = .error (.invalidKeyword (bytes "OR)")) :=
  ⟨rfl, rfl⟩

/-- C8 counterexample: by the claim every literal operand of
`COERCE … _datetime_` is folded to a `CoercedConst` node; for the
Number literal `1` the parser instead fails with the forwarded
`UnsupportedCOERCE` evaluation error, producing no tree at all. -/
theorem c8_number_literal_fold_errors :
    parseBytes (bytes "COERCE 1 _datetime_")
      = .error (.evalErr (.unsupportedCOERCE [.number (.finite 1)])) :=
  rfl

/-- C9: every token successfully yielded by the tokenizer lies inside
the source (`start + len ≤ |S|`); re-lexing the source suffix at
`start` reads back exactly this token's `kind` and `len`, so the slice
`S[start .. start+len]` is precisely the text the token was read from;
a token never starts on a whitespace byte, and consecutive spans are
disjoint and ordered — skipped whitespace lies strictly between
spans. -/
theorem c9_token_span_invariant (exp : List Nat) (ts : List Token)
    (h : tokens exp = .ok ts) :
    (∀ t ∈ ts, t.start + t.len ≤ exp.length ∧
       tokenizeSingleToken (exp.drop t.start) = .ok (t.kind, t.len) ∧
       (∃ b, (exp.drop t.start).head? = some b ∧ isWsB b = false)) ∧
    ts.Chain' (fun a b => a.start + a.len ≤ b.start) := by
  have hs := tokensFromF_spec exp (exp.length + 1) 0 ts h
  exact ⟨fun t ht => ⟨(hs.1 t ht).2.1, (hs.1 t ht).2.2.1, (hs.1 t ht).2.2.2⟩, hs.2⟩

/-! ## Witnesses -/

theorem c1_witness :
    tokenizeSingleToken (bytes "OR" ++ 32 :: bytes "x") = .ok (.or, 2) :=
  (c1_keyword_termination.1 (bytes "x") 32 (by decide)).1

theorem c2_witness :
    calculate (.between (.coercedConst (.string (bytes "a")))
      (.coercedConst (.string (bytes "c")))
      (.coercedConst (.string (bytes "b")))) emptyDoc
      = .ok (.bool (bytesLt (bytes "a") (bytes "b") && bytesLt (bytes "b") (bytes "c"))) ∧
    calculate (.between (.coercedConst (.number (.finite 0)))
      (.coercedConst (.number (.finite 1))) (.coercedConst .null)) emptyDoc
      = .ok (.bool false) ∧
    calculate (.between (.coercedConst (.bool true))
      (.coercedConst (.number (.finite 1)))
      (.coercedConst (.number (.finite 0)))) emptyDoc
      = .error (.unsupportedTypeComparison
          [.number (.finite 0), .bool true, .number (.finite 1)]) :=
  ⟨c2_between_strict_interval_null_false.1 _ _ _ emptyDoc _ _ _ rfl rfl rfl,
    c2_between_strict_interval_null_false.2.2.2.1 _ _ _ emptyDoc _ _ _ rfl rfl rfl
      (Or.inl rfl),
    c2_between_strict_interval_null_false.2.2.2.2 _ _ _ emptyDoc _ _ _ rfl rfl rfl
      rfl rfl rfl rfl⟩

theorem c3_witness :
    calculate (.and (.sub .nullLit .nullLit) (.boolLit true)) emptyDoc
      = .error (.unsupportedTypeComparison [Value.null, Value.null]) ∧
    calculate (.and (.boolLit false) (.sub .nullLit .nullLit)) emptyDoc
      = .error (.unsupportedTypeComparison [Value.null, Value.null]) ∧
    calculate (.or (.boolLit true) (.sub .nullLit .nullLit)) emptyDoc
      = .error (.unsupportedTypeComparison [Value.null, Value.null]) ∧
    calculate (.and (.boolLit true) (.boolLit false)) emptyDoc = .ok (.bool false) ∧
    calculate (.or (.boolLit true) (.boolLit false)) emptyDoc = .ok (.bool true) ∧
    calculate (.and (.boolLit true) .nullLit) emptyDoc
      = .error (.unsupportedTypeComparison [.bool true, .null]) :=
  ⟨c3_logical_both_operands_evaluated.1 _ _ emptyDoc _ rfl,
    c3_logical_both_operands_evaluated.2.1 _ _ emptyDoc _ _ rfl rfl,
    c3_logical_both_operands_evaluated.2.2.2.1 _ _ emptyDoc _ _ rfl rfl,
    c3_logical_both_operands_evaluated.2.2.2.2.1 (.boolLit true) (.boolLit false)
      emptyDoc true false rfl rfl,
    c3_logical_both_operands_evaluated.2.2.2.2.2.1 (.boolLit true) (.boolLit false)
      emptyDoc true false rfl rfl,
    c3_logical_both_operands_evaluated.2.2.2.2.2.2.1 _ _ emptyDoc _ _ rfl rfl rfl⟩

theorem c5_witness :
    calculate (.add (.coercedConst (.number (.finite 2))) (.coercedConst .null)) emptyDoc
      = .ok (.number (.finite 2)) ∧
    calculate (.add (.coercedConst .null) (.coercedConst (.string (bytes "x")))) emptyDoc
      = .ok (.string (bytes "x")) ∧
    calculate (.add (.coercedConst (.number (.finite 1)))
      (.coercedConst (.number (.finite 2)))) emptyDoc
      = .ok (.number (FNum.fadd (.finite 1) (.finite 2))) ∧
    calculate (.sub (.coercedConst (.number (.finite 1))) (.coercedConst .null)) emptyDoc
      = .error (.unsupportedTypeComparison [.number (.finite 1), .null]) ∧
    calculate (.div (.coercedConst .null) (.coercedConst (.number (.finite 1)))) emptyDoc
      = .error (.unsupportedTypeComparison [.null, .number (.finite 1)]) :=
  ⟨c5_add_null_propagation.1 _ _ emptyDoc _ rfl rfl,
    c5_add_null_propagation.2.2.2.1 _ _ emptyDoc _ rfl rfl,
    c5_add_null_propagation.2.2.2.2.1 _ _ emptyDoc _ _ rfl rfl,
    c5_add_null_propagation.2.2.2.2.2.2.1 _ _ emptyDoc _ _ rfl rfl rfl,
    c5_add_null_propagation.2.2.2.2.2.2.2.2 _ _ emptyDoc _ _ rfl rfl rfl⟩

theorem c7_witness :
    calculate (.isIn (.coercedConst (.number (.finite 2)))
      (.coercedConst (.array [.number (.finite 1), .number (.finite 2)]))) emptyDoc
      = .ok (.bool (vcontains [.number (.finite 1), .number (.finite 2)]
          (.number (.finite 2)))) ∧
    calculate (.contains (.coercedConst (.array [.number (.finite 1), .number (.finite 2)]))
      (.coercedConst (.number (.finite 2)))) emptyDoc
      = .ok (.bool (vcontains [.number (.finite 1), .number (.finite 2)]
          (.number (.finite 2)))) ∧
    calculate (.isIn (.coercedConst (.number (.finite 2)))
      (.coercedConst (.string (bytes "xs")))) emptyDoc
      = .error (.unsupportedTypeComparison [.number (.finite 2), .string (bytes "xs")]) :=
  ⟨(c7_in_iff_contains.1 (.coercedConst (.number (.finite 2)))
      (.coercedConst (.array [.number (.finite 1), .number (.finite 2)])) emptyDoc
      (.number (.finite 2)) [.number (.finite 1), .number (.finite 2)] rfl rfl).1,
    (c7_in_iff_contains.1 (.coercedConst (.number (.finite 2)))
      (.coercedConst (.array [.number (.finite 1), .number (.finite 2)])) emptyDoc
      (.number (.finite 2)) [.number (.finite 1), .number (.finite 2)] rfl rfl).2,
    c7_in_iff_contains.2 (.coercedConst (.number (.finite 2)))
      (.coercedConst (.string (bytes "xs"))) emptyDoc
      (.number (.finite 2)) (.string (bytes "xs")) rfl rfl rfl⟩

theorem c6_witness :
    veq (.bool true) (.bool true) = true ∧
    veq .null (.bool true) = false ∧
    objInsert (bytes "a") .null (objInsert (bytes "b") .null [])
      = objInsert (bytes "b") .null (objInsert (bytes "a") .null []) ∧
    calculate (.eq (.coercedConst (.string (bytes "x")))
      (.coercedConst (.string (bytes "x")))) emptyDoc
      = .ok (.bool (veq (.string (bytes "x")) (.string (bytes "x")))) ∧
    veq (.string (bytes "x")) (.string (bytes "x")) = true :=
  ⟨c6_value_equality_laws.2.2.1 (.bool true) rfl,
    c6_value_equality_laws.2.2.2.2.1 .null (.bool true) (by decide),
    c6_value_equality_laws.2.2.2.2.2.2.2.1 [] (bytes "a") (bytes "b") .null .null
      (by decide),
    c6_value_equality_laws.2.2.2.2.2.2.2.2 (.coercedConst (.string (bytes "x")))
      (.coercedConst (.string (bytes "x"))) emptyDoc (.string (bytes "x"))
      (.string (bytes "x")) rfl rfl,
    c6_value_equality_laws.2.1 (.string (bytes "x")) (.string (bytes "x"))
      (.string (bytes "x")) rfl rfl⟩

theorem c9_witness :
    (∀ t ∈ [Token.mk 0 1 .number, Token.mk 2 1 .add, Token.mk 4 1 .number],
       t.start + t.len ≤ (bytes "1 + 2").length ∧
       tokenizeSingleToken ((bytes "1 + 2").drop t.start) = .ok (t.kind, t.len) ∧
       (∃ b, ((bytes "1 + 2").drop t.start).head? = some b ∧ isWsB b = false)) ∧
    List.Chain' (fun a b => a.start + a.len ≤ b.start)
      [Token.mk 0 1 .number, Token.mk 2 1 .add, Token.mk 4 1 .number] :=
  c9_token_span_invariant (bytes "1 + 2")
    [Token.mk 0 1 .number, Token.mk 2 1 .add, Token.mk 4 1 .number] rfl

theorem c10_witness :
    parseBytes (bytes "  ") = .error (.parseErr "no expression results found") :=
  c10_no_tokens_is_parse_error (bytes "  ") (by decide)
